import Mathlib

/-! Access-control policies of netmaker (`logic/acls.go`).

A shallow embedding of the policy store wrapper, the CRUD operations and the
communication authorizer of `logic/acls.go`, followed by theorems about them.

Conventions of the embedding.

* A Go function returning `(T, error)` becomes a function returning
  `T × Option Error`; a Go `error` result is `Option Error` (`none` is `nil`).
* Code that writes to the database takes the database and returns the new one
  as the first component of its result.
* A Go `map[K]struct{}` (a set) is a list of its keys; `_, ok := m[k]` is
  membership in that list.
* `uuid.New()` and `time.Now()` are inputs of the function that calls them.
* A collection of the store is a sequence of keyed records; a scan yields the
  records in that order, the same at every call on the same store state.
* Go strings are Lean strings, and a stored JSON string is represented by the
  policy it decodes to (see `Encoded`).
-/

set_option autoImplicit false

/-! ## Data model (`models`) -/

namespace uuid

/-- A UUID, represented by its canonical text form (the value of `String()`). -/
structure UUID where
  text : String
deriving DecidableEq, Repr

end uuid

/-- Canonical text form of a UUID, `uuid.UUID.String()`. -/
def uuid.UUID.String (u : uuid.UUID) : String := u.text

namespace time

/-- An instant, `time.Time`, as a count of nanoseconds. -/
abbrev Time := Int

end time

namespace models

/-- The type `models.NetworkID`, a string. -/
abbrev NetworkID := String

/-- The type `models.TagID`, a string. -/
abbrev TagID := String

/-- The type `models.AclPolicyType`, a string. -/
abbrev AclPolicyType := String

/-- The type `models.AclGroupType`, a string: the kind of a policy tag. -/
abbrev AclGroupType := String

/-- The type `models.AllowedTrafficDirection`, an integer enumeration. -/
abbrev AllowedTrafficDirection := Nat

/-- Modelled from the spec: the constant `models.UserPolicy` is declared outside
the sources at hand; the rule type "UserPolicy". -/
def UserPolicy : AclPolicyType := "user-policy"

/-- Modelled from the spec: the constant `models.DevicePolicy` is declared
outside the sources at hand; the rule type "DevicePolicy". -/
def DevicePolicy : AclPolicyType := "device-policy"

/-- Modelled from the spec: the constant `models.UserAclID` is declared outside
the sources at hand; the tag kind "User". -/
def UserAclID : AclGroupType := "user"

/-- Modelled from the spec: the constant `models.UserGroupAclID` is declared
outside the sources at hand; the tag kind "UserGroup". -/
def UserGroupAclID : AclGroupType := "user-group"

/-- Modelled from the spec: the constant `models.DeviceAclID` is declared
outside the sources at hand; the tag kind "Device". -/
def DeviceAclID : AclGroupType := "device"

/-- Modelled from the spec: the constant `models.TrafficDirectionUni` is
declared outside the sources at hand; the direction "Unidirectional". -/
def TrafficDirectionUni : AllowedTrafficDirection := 0

/-- Modelled from the spec: the constant `models.TrafficDirectionBi` is declared
outside the sources at hand; the direction "Bidirectional". -/
def TrafficDirectionBi : AllowedTrafficDirection := 1

/-- A policy tag `models.AclPolicyTag`: a kind (`ID`) and a value. -/
structure AclPolicyTag where
  ID : models.AclGroupType
  Value : String
deriving DecidableEq, Repr

/-- A policy, `models.Acl`. -/
structure Acl where
  ID : uuid.UUID
  Default : Bool
  Name : String
  NetworkID : models.NetworkID
  RuleType : models.AclPolicyType
  Src : List models.AclPolicyTag
  Dst : List models.AclPolicyTag
  AllowedDirection : models.AllowedTrafficDirection
  Enabled : Bool
  CreatedBy : String
  CreatedAt : time.Time
deriving DecidableEq, Repr

/-- The zero value `models.Acl{}`. -/
def Acl.zero : Acl :=
  { ID := ⟨""⟩, Default := false, Name := "", NetworkID := "", RuleType := "",
    Src := [], Dst := [], AllowedDirection := 0, Enabled := false,
    CreatedBy := "", CreatedAt := 0 }

/-- The fields of `models.Node` that the policy code reads: the network and the
set of tags the node carries. -/
structure Node where
  Network : String
  Tags : List models.TagID
deriving DecidableEq, Repr

/-- The type `models.UserGroupID`, a string. -/
abbrev UserGroupID := String

/-- The fields of `models.User` that the policy code reads: the user name and
the set of groups the user belongs to. -/
structure User where
  UserName : String
  UserGroups : List models.UserGroupID
deriving DecidableEq, Repr

end models

/-- The method `String()` of `models.UserGroupID`. -/
def models.UserGroupID.String (g : models.UserGroupID) : String := g

/-- The method `String()` of `models.TagID`. -/
def models.TagID.String (t : models.TagID) : String := t

/-- The method `String()` of `models.AclGroupType`. -/
def models.AclGroupType.String (g : models.AclGroupType) : String := g

/-! ## Errors, serialization and the key-value store -/

/-- A Go `error` value, by kind. -/
inductive Error where
  /-- The store has no record under the key (`NotFound`). -/
  | noRecord
  /-- The scanned collection is empty. -/
  | noRecords
  /-- The store failed to write or to scan (`StorageError`). -/
  | storage (msg : String)
  /-- The value could not be encoded or decoded. -/
  | json (msg : String)
  /-- An error made by `errors.New`. -/
  | text (msg : String)
deriving DecidableEq, Repr

/-- Modelled from the spec: `encoding/json` and the strings it produces are
outside the sources at hand. A stored string is represented by what
`json.Unmarshal` makes of it: the policy it is the encoding of, or bytes that do
not decode to a policy. -/
inductive Encoded where
  | policy (a : models.Acl)
  | malformed (raw : String)
deriving DecidableEq, Repr

namespace json

/-- Modelled from the spec: `json.Marshal` of a policy yields its encoding. -/
def Marshal (a : models.Acl) : Encoded × Option Error :=
  (Encoded.policy a, none)

/-- Modelled from the spec: `json.Unmarshal` into `a` yields the encoded policy,
or fails on malformed bytes and leaves `a` as it was. -/
def Unmarshal (d : Encoded) (a : models.Acl) : models.Acl × Option Error :=
  match d with
  | Encoded.policy p => (p, none)
  | Encoded.malformed raw => (a, some (Error.json raw))

end json

/-- One collection of the store: records in scan order, each under its key. -/
abbrev Table := List (String × Encoded)

/-- Record stored under `key`, if there is one. -/
def Table.get (t : Table) (key : String) : Option Encoded :=
  List.lookup key t

/-- Store `value` under `key`, replacing the record already there if any. -/
def Table.put (key : String) (value : Encoded) : Table → Table
  | [] => [(key, value)]
  | (k, v) :: rest =>
    if k = key then (key, value) :: rest else (k, v) :: Table.put key value rest

/-- Remove every record stored under `key`. -/
def Table.erase (key : String) (t : Table) : Table :=
  t.filter (fun kv => kv.1 ≠ key)

/-- Modelled from the spec: the collection names `database.ACLS_TABLE_NAME` and
`database.TAG_TABLE_NAME` are declared outside the sources at hand; they name
two collections of the store, the one dedicated to policies and a second one.
-/
inductive TableName where
  | ACLS_TABLE_NAME
  | TAG_TABLE_NAME
deriving DecidableEq, Repr

/-- Modelled from the spec: the package `database` is outside the sources at
hand. A store state holds the two collections and says whether writes and scans
currently fail (and with which message). -/
structure Database where
  acls : Table
  tags : Table
  writeFault : Option String
  scanFault : Option String
deriving DecidableEq, Repr

namespace database

/-- The collection named `t`. -/
def table (db : Database) (t : TableName) : Table :=
  match t with
  | TableName.ACLS_TABLE_NAME => db.acls
  | TableName.TAG_TABLE_NAME => db.tags

/-- The store with collection `t` replaced by `tbl`. -/
def setTable (db : Database) (t : TableName) (tbl : Table) : Database :=
  match t with
  | TableName.ACLS_TABLE_NAME => { db with acls := tbl }
  | TableName.TAG_TABLE_NAME => { db with tags := tbl }

/-- Modelled from the spec: `database.Insert` (the store's `put`) is outside the
sources at hand; it stores the value under the key, or fails with a storage
error and changes nothing. -/
def Insert (db : Database) (key : String) (value : Encoded) (t : TableName) :
    Database × Option Error :=
  match db.writeFault with
  | some msg => (db, some (Error.storage msg))
  | none => (setTable db t (Table.put key value (table db t)), none)

/-- Modelled from the spec: `database.FetchRecord` (the store's `get`) is
outside the sources at hand; it fails with `NotFound` when the key is absent. -/
def FetchRecord (db : Database) (t : TableName) (key : String) :
    Encoded × Option Error :=
  match Table.get (table db t) key with
  | some v => (v, none)
  | none => (Encoded.malformed "", some Error.noRecord)

/-- Modelled from the spec: `database.DeleteRecord` (the store's `delete`) is
outside the sources at hand; it removes by key and fails with `NotFound` when
the key is absent. -/
def DeleteRecord (db : Database) (t : TableName) (key : String) :
    Database × Option Error :=
  match Table.get (table db t) key with
  | some _ => (setTable db t (Table.erase key (table db t)), none)
  | none => (db, some Error.noRecord)

/-- Modelled from the spec: `database.FetchRecords` (the store's `scanAll`) is
outside the sources at hand; it yields the records of the collection in scan
order, reports an empty collection through the empty-collection error, and may
fail with another error. -/
def FetchRecords (db : Database) (t : TableName) : List Encoded × Option Error :=
  match db.scanFault with
  | some msg => ([], some (Error.storage msg))
  | none =>
    if (table db t).isEmpty then ([], some Error.noRecords)
    else ((table db t).map Prod.snd, none)

/-- Modelled from the spec: `database.IsEmptyRecord` is outside the sources at
hand; it recognises the empty-collection error. -/
def IsEmptyRecord (err : Option Error) : Bool :=
  match err with
  | some Error.noRecords => true
  | _ => false

end database

/-! ## `logic/acls.go` -/

open TableName

/-- The function `InsertAcl`: creates acl policy. -/
def InsertAcl (db : Database) (a : models.Acl) : Database × Option Error :=
  match json.Marshal a with
  | (_, some err) => (db, some err)
  | (d, none) => database.Insert db a.ID.String d ACLS_TABLE_NAME

/-- The function `GetAcl`: gets acl info by id. -/
def GetAcl (db : Database) (aID : String) : models.Acl × Option Error :=
  let a := models.Acl.zero
  match database.FetchRecord db ACLS_TABLE_NAME aID with
  | (_, some err) => (a, some err)
  | (d, none) =>
    match json.Unmarshal d a with
    | (a, some err) => (a, some err)
    | (a, none) => (a, none)

/-- The function `UpdateAcl`: updates allowed fields on acls and commits to DB.
-/
def UpdateAcl (db : Database) (newAcl acl : models.Acl) : Database × Option Error :=
  let acl := if newAcl.Name ≠ "" then { acl with Name := newAcl.Name } else acl
  let acl := { acl with Src := newAcl.Src }
  let acl := { acl with Dst := newAcl.Dst }
  let acl := { acl with AllowedDirection := newAcl.AllowedDirection }
  let acl := { acl with Enabled := newAcl.Enabled }
  match json.Marshal acl with
  | (_, some err) => (db, some err)
  | (d, none) => database.Insert db acl.ID.String d ACLS_TABLE_NAME

/-- The function `DeleteAcl`: deletes acl policy. -/
def DeleteAcl (db : Database) (a : models.Acl) : Database × Option Error :=
  database.DeleteRecord db ACLS_TABLE_NAME a.ID.String

/-- The function `ListAcls`: lists all acl policies. -/
def ListAcls (db : Database) (netID : models.NetworkID) :
    List models.Acl × Option Error :=
  match database.FetchRecords db TAG_TABLE_NAME with
  | (data, err) =>
    if err ≠ none ∧ ¬ database.IsEmptyRecord err then ([], err)
    else
      (data.filterMap (fun dataI =>
        match json.Unmarshal dataI models.Acl.zero with
        | (_, some _) => none
        | (acl, none) => if acl.NetworkID = netID then some acl else none), none)

/-- The function `listDevicePolicies`: lists all device policies in a network.
-/
def listDevicePolicies (db : Database) (netID : models.NetworkID) : List models.Acl :=
  match database.FetchRecords db TAG_TABLE_NAME with
  | (data, err) =>
    if err ≠ none ∧ ¬ database.IsEmptyRecord err then []
    else
      data.filterMap (fun dataI =>
        match json.Unmarshal dataI models.Acl.zero with
        | (_, some _) => none
        | (acl, none) =>
          if acl.NetworkID = netID ∧ acl.RuleType = models.DevicePolicy then some acl
          else none)

/-- The function `GetDefaultPolicy`: fetches default policy in the network by
ruleType. -/
def GetDefaultPolicy (db : Database) (netID : models.NetworkID)
    (ruleType : models.AclPolicyType) : models.Acl × Option Error :=
  match ListAcls db netID with
  | (acls, _) =>
    match acls.find? (fun acl => acl.Default && decide (acl.RuleType = ruleType)) with
    | some acl => (acl, none)
    | none => (models.Acl.zero, some (Error.text "default rule not found"))

/-- The function `convAclTagToValueMap`: the key set built from a tag list. -/
def convAclTagToValueMap (acltags : List models.AclPolicyTag) : List String :=
  acltags.map (fun aclTagI => aclTagI.ID.String)

/-- The function `IsNodeAllowedToCommunicate`: check node is allowed to
communicate with the peer. -/
def IsNodeAllowedToCommunicate (db : Database) (node peer : models.Node) : Bool :=
  match GetDefaultPolicy db node.Network models.DevicePolicy with
  | (defaultPolicy, err) =>
    if err = none ∧ defaultPolicy.Enabled = true then true
    else
      let policies := listDevicePolicies db peer.Network
      policies.any (fun policy =>
        let srcMap := convAclTagToValueMap policy.Src
        let dstMap := convAclTagToValueMap policy.Dst
        peer.Tags.any (fun tagID =>
          (decide (models.TagID.String tagID ∈ dstMap) &&
            node.Tags.any (fun tagID => decide (models.TagID.String tagID ∈ srcMap)))
          ||
          (decide (models.TagID.String tagID ∈ srcMap) &&
            node.Tags.any (fun tagID => decide (models.TagID.String tagID ∈ dstMap)))))

/-- The function `CreateDefaultAclNetworkPolicies`: create default acl network
policies. The two identifiers and the two instants are the results of the calls
of `uuid.New()` and `time.Now().UTC()`, in order. -/
def CreateDefaultAclNetworkPolicies (db : Database) (netID : models.NetworkID)
    (id1 id2 : uuid.UUID) (now1 now2 : time.Time) : Database :=
  let defaultDeviceAcl : models.Acl :=
    { ID := id1
      Default := true
      Name := "all-nodes"
      NetworkID := netID
      RuleType := models.DevicePolicy
      Src := [{ ID := models.DeviceAclID, Value := "*" }]
      Dst := [{ ID := models.DeviceAclID, Value := "*" }]
      AllowedDirection := models.TrafficDirectionBi
      Enabled := true
      CreatedBy := "auto"
      CreatedAt := now1 }
  let db := (InsertAcl db defaultDeviceAcl).1
  let defaultUserAcl : models.Acl :=
    { ID := id2
      Default := true
      Name := "all-users"
      NetworkID := netID
      RuleType := models.UserPolicy
      Src := [{ ID := models.UserAclID, Value := "*" },
              { ID := models.UserGroupAclID, Value := "*" }]
      Dst := [{ ID := models.DeviceAclID, Value := "*" }]
      AllowedDirection := models.TrafficDirectionUni
      Enabled := true
      CreatedBy := "auto"
      CreatedAt := now2 }
  let db := (InsertAcl db defaultUserAcl).1
  db

/-- The existence checks `GetUser`, `IsGroupValid` and `GetTag` of package
`logic`, which are outside the sources at hand: each gives the error of the
lookup of an identifier (`none` when the entity exists). They are inputs of the
validator. -/
structure Resolver where
  GetUser : String → Option Error
  IsGroupValid : models.UserGroupID → Option Error
  GetTag : models.TagID → Option Error

/-- Body of the loop over `acl.Src` under `case models.UserPolicy`: `false` when
the body reaches a `break`, `true` when it runs to its end. -/
def IsAclPolicyValid.userSrcBody (r : Resolver) (srcI : models.AclPolicyTag) : Bool :=
  if srcI.ID = "" ∨ srcI.Value = "" then false
  else if srcI.ID ≠ models.UserAclID ∧ srcI.ID ≠ models.UserGroupAclID then false
  else if srcI.ID = models.UserAclID then
    (if r.GetUser srcI.Value ≠ none then false else true)
  else if srcI.ID = models.UserGroupAclID then
    (if r.IsGroupValid srcI.Value ≠ none then false else true)
  else true

/-- Body of the loop over `acl.Dst` under `case models.UserPolicy`. -/
def IsAclPolicyValid.userDstBody (r : Resolver) (dstI : models.AclPolicyTag) : Bool :=
  if dstI.ID = "" ∨ dstI.Value = "" then false
  else if dstI.ID = models.UserAclID ∨ dstI.ID = models.UserGroupAclID then false
  else if dstI.ID ≠ models.DeviceAclID then false
  else if r.GetTag dstI.Value ≠ none then false
  else true

/-- Body of the loops over `acl.Src` and over `acl.Dst` under
`case models.DevicePolicy` (the two bodies are the same). -/
def IsAclPolicyValid.deviceBody (r : Resolver) (tagI : models.AclPolicyTag) : Bool :=
  if tagI.ID = "" ∨ tagI.Value = "" then false
  else if tagI.ID ≠ models.DeviceAclID then false
  else if r.GetTag tagI.Value ≠ none then false
  else true

/-- What a run of `IsAclPolicyValid` goes through: the entries of `Src` and of
`Dst` whose loop body ran to its end before the loop stopped, and the value of
`isValid` at the `return`. -/
structure ValidationRun where
  srcPassed : List models.AclPolicyTag
  dstPassed : List models.AclPolicyTag
  isValid : Bool
deriving DecidableEq, Repr

/-- The run of `IsAclPolicyValid`: a `for` loop whose body may `break` passes
the longest run of leading entries on which the body does not break. -/
def IsAclPolicyValid.run (r : Resolver) (acl : models.Acl) : ValidationRun :=
  let isValid := false
  if acl.RuleType = models.UserPolicy then
    let srcPassed := acl.Src.takeWhile (IsAclPolicyValid.userSrcBody r)
    let dstPassed := acl.Dst.takeWhile (IsAclPolicyValid.userDstBody r)
    let isValid := true
    { srcPassed := srcPassed, dstPassed := dstPassed, isValid := isValid }
  else if acl.RuleType = models.DevicePolicy then
    let srcPassed := acl.Src.takeWhile (IsAclPolicyValid.deviceBody r)
    let dstPassed := acl.Dst.takeWhile (IsAclPolicyValid.deviceBody r)
    let isValid := true
    { srcPassed := srcPassed, dstPassed := dstPassed, isValid := isValid }
  else
    { srcPassed := [], dstPassed := [], isValid := isValid }

/-- The function `IsAclPolicyValid`: validates if acl policy is valid. -/
def IsAclPolicyValid (r : Resolver) (acl : models.Acl) : Bool :=
  (IsAclPolicyValid.run r acl).isValid

/-- The function `DeleteDefaultNetworkPolicies`: deletes all default network acl
policies. -/
def DeleteDefaultNetworkPolicies (db : Database) (netId : models.NetworkID) : Database :=
  match ListAcls db netId with
  | (acls, _) =>
    acls.foldl (fun db acl =>
      if acl.NetworkID = netId ∧ acl.Default = true then (DeleteAcl db acl).1 else db) db

/-- The function `ListUserPolicies`: lists all acl policies enforced on an user.
-/
def ListUserPolicies (db : Database) (u : models.User) : List models.Acl :=
  match database.FetchRecords db TAG_TABLE_NAME with
  | (data, err) =>
    if err ≠ none ∧ ¬ database.IsEmptyRecord err then []
    else
      data.filterMap (fun dataI =>
        match json.Unmarshal dataI models.Acl.zero with
        | (_, some _) => none
        | (acl, none) =>
          if acl.RuleType = models.UserPolicy then
            let srcMap := convAclTagToValueMap acl.Src
            if u.UserName ∈ srcMap then some acl
            else if u.UserGroups.any (fun gID =>
                decide (models.UserGroupID.String gID ∈ srcMap)) then some acl
            else none
          else none)

/-- The function `ListUserPoliciesByNetwork`: lists all acl user policies in a
network. -/
def ListUserPoliciesByNetwork (db : Database) (netID : models.NetworkID) :
    List models.Acl :=
  match database.FetchRecords db TAG_TABLE_NAME with
  | (data, err) =>
    if err ≠ none ∧ ¬ database.IsEmptyRecord err then []
    else
      data.filterMap (fun dataI =>
        match json.Unmarshal dataI models.Acl.zero with
        | (_, some _) => none
        | (acl, none) =>
          if acl.NetworkID = netID ∧ acl.RuleType = models.UserPolicy then some acl
          else none)

namespace sort

/-- Place `a` in a list: before the first entry that `less` puts after it. -/
def place {α : Type} (less : α → α → Bool) (a : α) : List α → List α
  | [] => [a]
  | b :: rest => if less a b then a :: b :: rest else b :: place less a rest

/-- The Go library routine `sort.Slice`, which is outside the sources at hand,
represented by a sort by insertion that consults `less` only; the slice sorted
in place is the list returned. -/
def Slice {α : Type} (xs : List α) (less : α → α → Bool) : List α :=
  xs.foldr (place less) []

end sort

/-- The function `SortAclEntrys`: sorts the slice of policies by name. -/
def SortAclEntrys (acls : List models.Acl) : List models.Acl :=
  sort.Slice acls (fun a b => decide (a.Name < b.Name))

/-- A policy with its `AllowedDirection` field blanked. -/
def spec_eraseDirection (a : models.Acl) : models.Acl :=
  { a with AllowedDirection := 0 }

/-- A stored record with the `AllowedDirection` of the policy it holds blanked.
-/
def spec_eraseDirectionIn (e : Encoded) : Encoded :=
  match e with
  | Encoded.policy a => Encoded.policy (spec_eraseDirection a)
  | Encoded.malformed raw => Encoded.malformed raw

/-- A store state with the `AllowedDirection` of every policy it holds blanked:
two states hold the same policies except for `AllowedDirection` when this makes
them equal. -/
def spec_eraseDirections (db : Database) : Database :=
  { db with
    acls := db.acls.map (fun kv => (kv.1, spec_eraseDirectionIn kv.2))
    tags := db.tags.map (fun kv => (kv.1, spec_eraseDirectionIn kv.2)) }

/-- The policies held by scanned records: every record that is the encoding of
a policy, in scan order. This follows the spec's words "the stored policies",
to be compared with what the listing code returns. -/
def spec_storedPolicies (data : List Encoded) : List models.Acl :=
  data.filterMap (fun d =>
    match d with
    | Encoded.policy a => some a
    | Encoded.malformed _ => none)

/-- The policies a listing function has before it: those held by the records
of the scan of the listed collection, none when the scan fails with an error
other than the empty-collection one. -/
def spec_scannedPolicies (db : Database) : List models.Acl :=
  if (database.FetchRecords db TAG_TABLE_NAME).2 ≠ none ∧
      ¬ database.IsEmptyRecord (database.FetchRecords db TAG_TABLE_NAME).2 then []
  else spec_storedPolicies (database.FetchRecords db TAG_TABLE_NAME).1

/-- The test `IsNodeAllowedToCommunicate` makes on one policy, as a statement: a
tag of the peer is in the key set of `Dst` and a tag of the node is in the key
set of `Src`, or a tag of the peer is in the key set of `Src` and a tag of the
node is in the key set of `Dst`; this is what "a matching policy" means below.
-/
def spec_policyMatches (policy : models.Acl) (node peer : models.Node) : Prop :=
  ((∃ p ∈ peer.Tags, models.TagID.String p ∈ convAclTagToValueMap policy.Dst) ∧
    (∃ n ∈ node.Tags, models.TagID.String n ∈ convAclTagToValueMap policy.Src)) ∨
  ((∃ p ∈ peer.Tags, models.TagID.String p ∈ convAclTagToValueMap policy.Src) ∧
    (∃ n ∈ node.Tags, models.TagID.String n ∈ convAclTagToValueMap policy.Dst))

instance (policy : models.Acl) (node peer : models.Node) :
    Decidable (spec_policyMatches policy node peer) := by
  unfold spec_policyMatches
  infer_instance

/-- A policy with its `Enabled` field blanked when it is a device policy that is
not a default policy; any other policy as it is. -/
def spec_eraseEnabled (a : models.Acl) : models.Acl :=
  if a.Default = false ∧ a.RuleType = models.DevicePolicy then { a with Enabled := false }
  else a

/-- A stored record with the `Enabled` field of a non-default device policy
blanked. -/
def spec_eraseEnabledIn (e : Encoded) : Encoded :=
  match e with
  | Encoded.policy a => Encoded.policy (spec_eraseEnabled a)
  | Encoded.malformed raw => Encoded.malformed raw

/-- A store state with the `Enabled` field of every non-default device policy
blanked: two states differ only by flips of `Enabled` on non-default device
policies when this makes them equal. -/
def spec_eraseEnabledFlags (db : Database) : Database :=
  { db with
    acls := db.acls.map (fun kv => (kv.1, spec_eraseEnabledIn kv.2))
    tags := db.tags.map (fun kv => (kv.1, spec_eraseEnabledIn kv.2)) }

/-- Whether a stored record decodes to a policy. -/
def spec_decodable (e : Encoded) : Bool :=
  match e with
  | Encoded.policy _ => true
  | Encoded.malformed _ => false

/-- A store state with every record that does not decode removed from both
collections. -/
def spec_dropUndecodable (db : Database) : Database :=
  { db with
    acls := db.acls.filter (fun kv => spec_decodable kv.2)
    tags := db.tags.filter (fun kv => spec_decodable kv.2) }

/-- Two store states give the same results to the six reading operations
`ListAcls`, `ListUserPoliciesByNetwork`, `listDevicePolicies`,
`ListUserPolicies`, `GetDefaultPolicy` and `IsNodeAllowedToCommunicate`, for
all their arguments. -/
def spec_sameReads (db db2 : Database) : Prop :=
  (∀ netID, ListAcls db2 netID = ListAcls db netID) ∧
  (∀ netID, ListUserPoliciesByNetwork db2 netID = ListUserPoliciesByNetwork db netID) ∧
  (∀ netID, listDevicePolicies db2 netID = listDevicePolicies db netID) ∧
  (∀ u, ListUserPolicies db2 u = ListUserPolicies db u) ∧
  (∀ netID ruleType, GetDefaultPolicy db2 netID ruleType = GetDefaultPolicy db netID ruleType) ∧
  (∀ node peer, IsNodeAllowedToCommunicate db2 node peer
    = IsNodeAllowedToCommunicate db node peer)

/-- One call of the bootstrapper: `CreateDefaultAclNetworkPolicies` for a
network, with the identifiers and instants it draws, or
`DeleteDefaultNetworkPolicies` for a network. -/
inductive BootstrapCall where
  | create (netID : models.NetworkID) (id1 id2 : uuid.UUID) (now1 now2 : time.Time)
  | delete (netID : models.NetworkID)
deriving DecidableEq, Repr

/-- The store after one call of the bootstrapper. -/
def BootstrapCall.apply (db : Database) (call : BootstrapCall) : Database :=
  match call with
  | BootstrapCall.create netID id1 id2 now1 now2 =>
    CreateDefaultAclNetworkPolicies db netID id1 id2 now1 now2
  | BootstrapCall.delete netID => DeleteDefaultNetworkPolicies db netID

/-- The store after a sequence of calls of the bootstrapper, in order. -/
def runBootstrapCalls (db : Database) (calls : List BootstrapCall) : Database :=
  calls.foldl BootstrapCall.apply db

/-- The network a call creates default policies for, if it is a creation. -/
def BootstrapCall.created (call : BootstrapCall) : Option models.NetworkID :=
  match call with
  | BootstrapCall.create netID _ _ _ _ => some netID
  | BootstrapCall.delete _ => none

/-- Whether a stored record holds a default policy of the network and rule type.
-/
def spec_isDefaultOf (netID : models.NetworkID) (ruleType : models.AclPolicyType)
    (e : Encoded) : Bool :=
  match e with
  | Encoded.policy a =>
    a.Default && decide (a.NetworkID = netID) && decide (a.RuleType = ruleType)
  | Encoded.malformed _ => false

/-- How many records of the policy collection hold a default policy of the
network and rule type. -/
def spec_defaultCount (db : Database) (netID : models.NetworkID)
    (ruleType : models.AclPolicyType) : Nat :=
  db.acls.countP (fun kv => spec_isDefaultOf netID ruleType kv.2)

/-! ## `nm-proxy/peer/peer.go` -/

namespace net

/-- An address `net.IP`, represented by its text form (the value of `String()`).
-/
structure IP where
  text : String
deriving DecidableEq, Repr

/-- The fields of `net.UDPAddr` that the code reads. -/
structure UDPAddr where
  IP : net.IP
  Port : Int
deriving DecidableEq, Repr

/-- A connection `net.Conn`, by its two addresses. -/
structure Conn where
  LocalAddr : String
  RemoteAddr : String
deriving DecidableEq, Repr

end net

/-- The method `String()` of `net.IP`. -/
def net.IP.String (ip : net.IP) : String := ip.text

/-- The library function `net.ParseIP`, on the text form of an address. -/
def net.ParseIP (s : String) : net.IP := ⟨s⟩

namespace wgtypes

/-- A WireGuard key `wgtypes.Key`, represented by its text form (the value of
`String()`). -/
structure Key where
  text : String
deriving DecidableEq, Repr

/-- The fields of `wgtypes.Device` that the code reads. -/
structure Device where
  PublicKey : wgtypes.Key
  ListenPort : Int
deriving DecidableEq, Repr

/-- The fields of `wgtypes.PeerConfig` that the code reads. -/
structure PeerConfig where
  PublicKey : wgtypes.Key
  Endpoint : net.UDPAddr
  AllowedIPs : List String
deriving DecidableEq, Repr

end wgtypes

/-- The method `String()` of `wgtypes.Key`. -/
def wgtypes.Key.String (k : wgtypes.Key) : String := k.text

namespace wg

/-- The fields of `wg.WGIface` that the code reads. -/
structure WGIface where
  Name : String
  Device : wgtypes.Device
deriving DecidableEq, Repr

end wg

namespace proxy

/-- The configuration `proxy.Config` of a proxy. -/
structure Config where
  Port : Int
  RemoteKey : String
  WgInterface : wg.WGIface
  AllowedIps : List String
deriving DecidableEq, Repr

/-- The fields of `proxy.Proxy` that the code reads; the context and its cancel
function are represented by handles. -/
structure Proxy where
  Ctx : Nat
  Cancel : Nat
  Config : proxy.Config
  LocalConn : net.Conn
deriving DecidableEq, Repr

end proxy

namespace common

/-- The connection configuration `common.ConnConfig`. -/
structure ConnConfig where
  Key : String
  LocalKey : String
  LocalWgPort : Int
  RemoteProxyIP : net.IP
  RemoteWgPort : Int
  RemoteProxyPort : Int
deriving DecidableEq, Repr

/-- The configuration `common.Config`. -/
structure Config where
  Port : Int
  RemoteKey : String
  WgInterface : wg.WGIface
  AllowedIps : List String
deriving DecidableEq, Repr

/-- The proxy record `common.Proxy`. -/
structure Proxy where
  Ctx : Nat
  Cancel : Nat
  Config : common.Config
  RemoteConn : net.Conn
  LocalConn : net.Conn
deriving DecidableEq, Repr

/-- A registered connection `common.Conn`. -/
structure Conn where
  Config : common.ConnConfig
  Proxy : common.Proxy
deriving DecidableEq, Repr

/-- The type of the registry `common.WgIFaceMap`, a map from interface name to a
map from peer key to connection. -/
abbrev Registry := String → Option (String → Option common.Conn)

end common

/-- What `AddNewPeer` takes from outside the sources at hand: the constant
`common.NmProxyPort`, the constructor `proxy.NewProxy`, the outcome of
`net.Dial` for a network and an address, and the outcome of `Start` on a proxy
and a connection (the proxy as `Start` leaves it, and its error). None of them
touches the registry. -/
structure Externals where
  NmProxyPort : Int
  NewProxy : proxy.Config → proxy.Proxy
  Dial : String → String → net.Conn × Option Error
  Start : proxy.Proxy → net.Conn → proxy.Proxy × Option Error

/-- The configuration `c` that `AddNewPeer` builds for the new proxy. -/
def AddNewPeer.proxyConfig (wgInterface : wg.WGIface) (peer : wgtypes.PeerConfig) :
    proxy.Config :=
  { Port := peer.Endpoint.Port
    RemoteKey := peer.PublicKey.String
    WgInterface := wgInterface
    AllowedIps := peer.AllowedIPs }

/-- The address `AddNewPeer` dials: `fmt.Sprintf("%s:%d", ip, port)` with the
peer's endpoint address and the proxy port. -/
def AddNewPeer.remoteAddress (ext : Externals) (peer : wgtypes.PeerConfig) : String :=
  peer.Endpoint.IP.String ++ ":" ++ toString ext.NmProxyPort

/-- The function `AddNewPeer`, on the registry `common.WgIFaceMap`: the registry
it leaves and the error it returns. -/
def AddNewPeer (ext : Externals) (WgIFaceMap : common.Registry)
    (wgInterface : wg.WGIface) (peer : wgtypes.PeerConfig) :
    common.Registry × Option Error :=
  let c := AddNewPeer.proxyConfig wgInterface peer
  let p := ext.NewProxy c
  match ext.Dial "udp" (AddNewPeer.remoteAddress ext peer) with
  | (_, some err) => (WgIFaceMap, some err)
  | (remoteConn, none) =>
    match ext.Start p remoteConn with
    | (_, some err) => (WgIFaceMap, some err)
    | (p, none) =>
      let connConf : common.ConnConfig :=
        { Key := peer.PublicKey.String
          LocalKey := wgInterface.Device.PublicKey.String
          LocalWgPort := wgInterface.Device.ListenPort
          RemoteProxyIP := net.ParseIP peer.Endpoint.IP.String
          RemoteWgPort := peer.Endpoint.Port
          RemoteProxyPort := ext.NmProxyPort }
      let peerProxy : common.Proxy :=
        { Ctx := p.Ctx
          Cancel := p.Cancel
          Config :=
            { Port := peer.Endpoint.Port
              RemoteKey := peer.PublicKey.String
              WgInterface := wgInterface
              AllowedIps := peer.AllowedIPs }
          RemoteConn := remoteConn
          LocalConn := p.LocalConn }
      let peerConn : common.Conn := { Config := connConf, Proxy := peerProxy }
      match WgIFaceMap wgInterface.Name with
      | some peers =>
        (Function.update WgIFaceMap wgInterface.Name
          (some (Function.update peers peer.PublicKey.String (some peerConn))), none)
      | none =>
        (Function.update WgIFaceMap wgInterface.Name
          (some (Function.update (fun _ => none) peer.PublicKey.String (some peerConn))),
          none)

/-- The connection the registry holds for an interface name and a peer key, if
any. -/
def spec_registered (reg : common.Registry) (iface key : String) : Option common.Conn :=
  match reg iface with
  | some peers => peers key
  | none => none

/-! ## Concrete store states and parties -/

namespace Sample

/-- A store with nothing in it and no fault. -/
def emptyStore : Database :=
  { acls := [], tags := [], writeFault := none, scanFault := none }

/-- A device policy of network "skynet" from tag "tagA" to tag "tagB". -/
def aToB : models.Acl :=
  { ID := ⟨"6ba7b810-9dad-11d1-80b4-00c04fd430c8"⟩
    Default := false
    Name := "a-to-b"
    NetworkID := "skynet"
    RuleType := models.DevicePolicy
    Src := [{ ID := models.DeviceAclID, Value := "tagA" }]
    Dst := [{ ID := models.DeviceAclID, Value := "tagB" }]
    AllowedDirection := models.TrafficDirectionUni
    Enabled := true
    CreatedBy := "admin"
    CreatedAt := 1700000000 }

/-- The default device policy of network "skynet", with the given enabled flag.
-/
def allNodes (enabled : Bool) : models.Acl :=
  { ID := ⟨"6ba7b811-9dad-11d1-80b4-00c04fd430c8"⟩
    Default := true
    Name := "all-nodes"
    NetworkID := "skynet"
    RuleType := models.DevicePolicy
    Src := [{ ID := models.DeviceAclID, Value := "*" }]
    Dst := [{ ID := models.DeviceAclID, Value := "*" }]
    AllowedDirection := models.TrafficDirectionBi
    Enabled := enabled
    CreatedBy := "auto"
    CreatedAt := 1600000000 }

/-- A user policy of network "othernet". -/
def usersOther : models.Acl :=
  { ID := ⟨"6ba7b812-9dad-11d1-80b4-00c04fd430c8"⟩
    Default := false
    Name := "staff"
    NetworkID := "othernet"
    RuleType := models.UserPolicy
    Src := [{ ID := models.UserAclID, Value := "alice" }]
    Dst := [{ ID := models.DeviceAclID, Value := "tagB" }]
    AllowedDirection := models.TrafficDirectionUni
    Enabled := true
    CreatedBy := "admin"
    CreatedAt := 1700000001 }

/-- An update request: empty name, empty source list, other fields set. -/
def blankUpdate : models.Acl :=
  { ID := ⟨"00000000-0000-0000-0000-000000000000"⟩
    Default := true
    Name := ""
    NetworkID := "othernet"
    RuleType := models.UserPolicy
    Src := []
    Dst := [{ ID := models.DeviceAclID, Value := "tagC" }]
    AllowedDirection := models.TrafficDirectionBi
    Enabled := false
    CreatedBy := "mallory"
    CreatedAt := 42 }

/-- A store whose policy collection holds `aToB`. -/
def aclStore : Database :=
  { acls := [(aToB.ID.String, Encoded.policy aToB)], tags := [],
    writeFault := none, scanFault := none }

/-- A store whose scanned collection holds the enabled default device policy of
"skynet". -/
def openStore : Database :=
  { acls := [], tags := [((allNodes true).ID.String, Encoded.policy (allNodes true))],
    writeFault := none, scanFault := none }

/-- A store whose scanned collection holds the disabled default device policy of
"skynet" and the policy `aToB`. -/
def closedStore : Database :=
  { acls := []
    tags := [((allNodes false).ID.String, Encoded.policy (allNodes false)),
             (aToB.ID.String, Encoded.policy aToB)]
    writeFault := none, scanFault := none }

/-- A store whose scanned collection holds the policy `aToB` and nothing else:
"skynet" has no default device policy. -/
def plainStore : Database :=
  { acls := [], tags := [(aToB.ID.String, Encoded.policy aToB)],
    writeFault := none, scanFault := none }

/-- A store whose scanned collection holds policies of two networks and one
record that does not decode. -/
def mixedStore : Database :=
  { acls := []
    tags := [(aToB.ID.String, Encoded.policy aToB),
             ("skynet.tagA", Encoded.malformed "tag record"),
             (usersOther.ID.String, Encoded.policy usersOther)]
    writeFault := none, scanFault := none }

/-- A store whose scans fail. -/
def brokenStore : Database :=
  { acls := [], tags := [(aToB.ID.String, Encoded.policy aToB)],
    writeFault := none, scanFault := some "disk failure" }

/-- A resolver for which no user, group or tag exists. -/
def nothingExists : Resolver :=
  { GetUser := fun _ => some Error.noRecord
    IsGroupValid := fun _ => some Error.noRecord
    GetTag := fun _ => some Error.noRecord }

/-- A device policy whose only src tag has the user kind and an empty value and
whose only dst tag has an empty kind. -/
def illFormed : models.Acl :=
  { ID := ⟨"6ba7b813-9dad-11d1-80b4-00c04fd430c8"⟩
    Default := false
    Name := "ill-formed"
    NetworkID := "skynet"
    RuleType := models.DevicePolicy
    Src := [{ ID := models.UserAclID, Value := "" }]
    Dst := [{ ID := "", Value := "tagB" }]
    AllowedDirection := models.TrafficDirectionUni
    Enabled := true
    CreatedBy := "admin"
    CreatedAt := 1700000002 }

/-- A user policy of network "skynet" whose src is the wildcard user tag. -/
def wildUsers : models.Acl :=
  { ID := ⟨"6ba7b814-9dad-11d1-80b4-00c04fd430c8"⟩
    Default := false
    Name := "everyone"
    NetworkID := "skynet"
    RuleType := models.UserPolicy
    Src := [{ ID := models.UserAclID, Value := "*" }]
    Dst := [{ ID := models.DeviceAclID, Value := "tagB" }]
    AllowedDirection := models.TrafficDirectionUni
    Enabled := true
    CreatedBy := "admin"
    CreatedAt := 1700000003 }

/-- A store whose scanned collection holds two user policies, of two networks,
and a device policy. -/
def userStore : Database :=
  { acls := []
    tags := [(wildUsers.ID.String, Encoded.policy wildUsers),
             (aToB.ID.String, Encoded.policy aToB),
             (usersOther.ID.String, Encoded.policy usersOther)]
    writeFault := none, scanFault := none }

/-- A user named "bob" who belongs to no group. -/
def bob : models.User :=
  { UserName := "bob", UserGroups := [] }

/-- A user whose name is the string of the user kind, in one group. -/
def kindNamed : models.User :=
  { UserName := models.UserAclID, UserGroups := ["ops"] }

/-- The store `closedStore` with the direction of every policy flipped. -/
def closedStoreFlipped : Database :=
  { acls := []
    tags := [((allNodes false).ID.String,
               Encoded.policy
                 { allNodes false with AllowedDirection := models.TrafficDirectionUni }),
             (aToB.ID.String,
               Encoded.policy { aToB with AllowedDirection := models.TrafficDirectionBi })]
    writeFault := none, scanFault := none }

/-- A device policy of network "skynet", not a default one, whose src and dst
are the wildcard device tag. -/
def wildDevices : models.Acl :=
  { ID := ⟨"6ba7b815-9dad-11d1-80b4-00c04fd430c8"⟩
    Default := false
    Name := "any-to-any"
    NetworkID := "skynet"
    RuleType := models.DevicePolicy
    Src := [{ ID := models.DeviceAclID, Value := "*" }]
    Dst := [{ ID := models.DeviceAclID, Value := "*" }]
    AllowedDirection := models.TrafficDirectionBi
    Enabled := true
    CreatedBy := "admin"
    CreatedAt := 1700000004 }

/-- A store whose scanned collection holds the disabled default device policy of
"skynet" and the wildcard device policy `wildDevices`. -/
def wildStore : Database :=
  { acls := []
    tags := [((allNodes false).ID.String, Encoded.policy (allNodes false)),
             (wildDevices.ID.String, Encoded.policy wildDevices)]
    writeFault := none, scanFault := none }

/-- The store `closedStore` with the policy `aToB` disabled. -/
def closedStoreDisabled : Database :=
  { acls := []
    tags := [((allNodes false).ID.String, Encoded.policy (allNodes false)),
             (aToB.ID.String, Encoded.policy { aToB with Enabled := false })]
    writeFault := none, scanFault := none }

/-- The store `mixedStore` without its undecodable record. -/
def mixedStoreClean : Database :=
  { acls := []
    tags := [(aToB.ID.String, Encoded.policy aToB),
             (usersOther.ID.String, Encoded.policy usersOther)]
    writeFault := none, scanFault := none }

/-- A store whose policy collection holds a record that does not decode. -/
def garbledStore : Database :=
  { acls := [("6ba7b816-9dad-11d1-80b4-00c04fd430c8", Encoded.malformed "not json")]
    tags := [], writeFault := none, scanFault := none }

/-- A node of network "othernet" carrying the given tags. -/
def othernetNode (tags : List models.TagID) : models.Node :=
  { Network := "othernet", Tags := tags }

/-- A store whose scanned collection holds the default device policy of "skynet"
and whose policy collection holds, under the same identifier, a policy that is
not a default one. -/
def crossedStore : Database :=
  { acls := [((allNodes true).ID.String,
               Encoded.policy { aToB with ID := (allNodes true).ID })]
    tags := [((allNodes true).ID.String, Encoded.policy (allNodes true))]
    writeFault := none, scanFault := none }

/-- Two creations of default policies for "skynet", with four distinct
identifiers. -/
def createTwice : List BootstrapCall :=
  [BootstrapCall.create "skynet" aToB.ID usersOther.ID 1 2,
   BootstrapCall.create "skynet" wildUsers.ID illFormed.ID 3 4]

/-- Creations of default policies for two networks around a deletion. -/
def createEach : List BootstrapCall :=
  [BootstrapCall.create "skynet" aToB.ID usersOther.ID 1 2,
   BootstrapCall.delete "skynet",
   BootstrapCall.create "othernet" wildUsers.ID illFormed.ID 3 4]

/-- An interface "wg0". -/
def wg0 : wg.WGIface :=
  { Name := "wg0", Device := { PublicKey := ⟨"bG9jYWwta2V5"⟩, ListenPort := 51821 } }

/-- A peer with endpoint 203.0.113.7:51820. -/
def remotePeer : wgtypes.PeerConfig :=
  { PublicKey := ⟨"cmVtb3RlLWtleQ=="⟩
    Endpoint := { IP := ⟨"203.0.113.7"⟩, Port := 51820 }
    AllowedIPs := ["10.71.0.2/32"] }

/-- A connection already registered under "wg0" for another peer. -/
def otherConn : common.Conn :=
  { Config :=
      { Key := "b3RoZXIta2V5", LocalKey := "bG9jYWwta2V5", LocalWgPort := 51821,
        RemoteProxyIP := ⟨"198.51.100.4"⟩, RemoteWgPort := 51820, RemoteProxyPort := 51722 }
    Proxy :=
      { Ctx := 1, Cancel := 1
        Config := { Port := 51820, RemoteKey := "b3RoZXIta2V5", WgInterface := wg0,
                    AllowedIps := ["10.71.0.3/32"] }
        RemoteConn := { LocalAddr := "192.0.2.1:40000", RemoteAddr := "198.51.100.4:51722" }
        LocalConn := { LocalAddr := "127.0.0.1:40001", RemoteAddr := "127.0.0.1:51821" } } }

/-- A registry holding `otherConn` under "wg0". -/
def registry : common.Registry :=
  fun iface =>
    if iface = "wg0" then
      some (fun key => if key = "b3RoZXIta2V5" then some otherConn else none)
    else none

/-- An outside world in which dialling and starting the proxy succeed. -/
def reachable : Externals :=
  { NmProxyPort := 51722
    NewProxy := fun c =>
      { Ctx := 2, Cancel := 2, Config := c,
        LocalConn := { LocalAddr := "", RemoteAddr := "" } }
    Dial := fun _ addr => ({ LocalAddr := "192.0.2.1:40002", RemoteAddr := addr }, none)
    Start := fun p _ =>
      ({ p with LocalConn := { LocalAddr := "127.0.0.1:40003",
                               RemoteAddr := "127.0.0.1:51821" } }, none) }

/-- An outside world in which dialling fails. -/
def unreachable : Externals :=
  { reachable with
    Dial := fun _ _ => ({ LocalAddr := "", RemoteAddr := "" },
      some (Error.text "network is unreachable")) }

/-- A node of network "skynet" carrying the given tags. -/
def skynetNode (tags : List models.TagID) : models.Node :=
  { Network := "skynet", Tags := tags }

end Sample

/-! ## Theorems -/

/-! ### Facts about the store model -/

theorem Table.get_put_self (key : String) (value : Encoded) (t : Table) :
    Table.get (Table.put key value t) key = some value := by
  induction t with
  | nil => simp [Table.put, Table.get, List.lookup]
  | cons kv rest ih =>
    obtain ⟨k, v⟩ := kv
    by_cases h : k = key
    · simp [Table.put, Table.get, List.lookup, h]
    · have h2 : (key == k) = false := by
        simpa using fun e => h e.symm
      simp only [Table.put, h, if_false, Table.get, List.lookup, h2]
      exact ih

theorem Table.get_put_other (key other : String) (value : Encoded) (t : Table)
    (hne : other ≠ key) :
    Table.get (Table.put key value t) other = Table.get t other := by
  induction t with
  | nil =>
    have h2 : (other == key) = false := by simpa using hne
    simp [Table.put, Table.get, List.lookup, h2]
  | cons kv rest ih =>
    obtain ⟨k, v⟩ := kv
    by_cases h : k = key
    · subst h
      have h2 : (other == k) = false := by simpa using hne
      simp [Table.put, Table.get, List.lookup, h2]
    · simp only [Table.put, h, if_false, Table.get, List.lookup]
      cases hk : (other == k)
      · exact ih
      · rfl

theorem Table.get_erase_self (key : String) (t : Table) :
    Table.get (Table.erase key t) key = none := by
  induction t with
  | nil => simp [Table.erase, Table.get, List.lookup]
  | cons kv rest ih =>
    obtain ⟨k, v⟩ := kv
    by_cases h : k = key
    · simpa [Table.erase, List.filter, h] using ih
    · have h2 : (key == k) = false := by
        simpa using fun e => h e.symm
      simp only [Table.erase, List.filter, h, Table.get, List.lookup, h2, ne_eq,
        not_false_eq_true, decide_True]
      exact ih

theorem database.table_setTable (db : Database) (t : TableName) (tbl : Table) :
    database.table (database.setTable db t tbl) t = tbl := by
  cases t <;> rfl

/-- The record `UpdateAcl` writes: `acl` with the mutable fields taken from
`newAcl`, the name only when the new one is not empty. -/
theorem updateAcl_eq (db : Database) (newAcl acl : models.Acl)
    (hw : db.writeFault = none) :
    UpdateAcl db newAcl acl =
      (database.setTable db ACLS_TABLE_NAME
        (Table.put acl.ID.String
          (Encoded.policy
            { acl with
              Name := if newAcl.Name ≠ "" then newAcl.Name else acl.Name
              Src := newAcl.Src
              Dst := newAcl.Dst
              AllowedDirection := newAcl.AllowedDirection
              Enabled := newAcl.Enabled })
          db.acls), none) := by
  unfold UpdateAcl json.Marshal database.Insert
  by_cases hn : newAcl.Name = "" <;> simp [hw, hn, database.table]

/-- After `UpdateAcl` on a store whose writes succeed, `GetAcl` of the existing
identifier returns the written record. -/
theorem getAcl_updateAcl (db : Database) (newAcl acl : models.Acl)
    (hw : db.writeFault = none) :
    GetAcl (UpdateAcl db newAcl acl).1 acl.ID.String =
      ({ acl with
          Name := if newAcl.Name ≠ "" then newAcl.Name else acl.Name
          Src := newAcl.Src
          Dst := newAcl.Dst
          AllowedDirection := newAcl.AllowedDirection
          Enabled := newAcl.Enabled }, none) := by
  rw [updateAcl_eq db newAcl acl hw]
  simp only [GetAcl, database.FetchRecord, database.table_setTable, Table.get_put_self,
    json.Unmarshal]

theorem updateAcl_ok (db : Database) (newAcl acl : models.Acl)
    (h : (UpdateAcl db newAcl acl).2 = none) : db.writeFault = none := by
  unfold UpdateAcl json.Marshal database.Insert at h
  cases hw : db.writeFault with
  | none => rfl
  | some msg => simp [hw] at h

/-- The listing loop of `ListAcls` keeps the decodable records of the network.
-/
theorem listAcls_loop_eq (data : List Encoded) (netID : models.NetworkID) :
    data.filterMap (fun dataI =>
        match json.Unmarshal dataI models.Acl.zero with
        | (_, some _) => none
        | (acl, none) => if acl.NetworkID = netID then some acl else none)
      = (spec_storedPolicies data).filter (fun a => decide (a.NetworkID = netID)) := by
  induction data with
  | nil => rfl
  | cons d rest ih =>
    cases d with
    | policy a =>
      by_cases hn : a.NetworkID = netID
      · simp [spec_storedPolicies, List.filterMap_cons, json.Unmarshal, hn] at ih ⊢
        exact ih
      · simp [spec_storedPolicies, List.filterMap_cons, json.Unmarshal, hn] at ih ⊢
        exact ih
    | malformed raw =>
      simp [spec_storedPolicies, List.filterMap_cons, json.Unmarshal] at ih ⊢
      exact ih

/-- When the scan succeeds or reports an empty collection, `ListAcls` returns
the scanned policies of the network and no error. -/
theorem listAcls_of_scan (db : Database) (netID : models.NetworkID)
    (hscan : (database.FetchRecords db TAG_TABLE_NAME).2 = none ∨
      database.IsEmptyRecord (database.FetchRecords db TAG_TABLE_NAME).2 = true) :
    ListAcls db netID =
      ((spec_storedPolicies (database.FetchRecords db TAG_TABLE_NAME).1).filter
        (fun a => decide (a.NetworkID = netID)), none) := by
  unfold ListAcls
  have hc : ¬ ((database.FetchRecords db TAG_TABLE_NAME).2 ≠ none ∧
      ¬ database.IsEmptyRecord (database.FetchRecords db TAG_TABLE_NAME).2 = true) := by
    rintro ⟨h1, h2⟩
    rcases hscan with h | h
    · exact h1 h
    · exact h2 h
  simp only [hc, if_false]
  rw [listAcls_loop_eq]

/-! ### The claims -/

/-- C1: when `GetDefaultPolicy` for the node's network and the device rule type
succeeds with an enabled policy, `IsNodeAllowedToCommunicate` returns true,
whatever the peer, the networks and the tags. -/
theorem isNodeAllowed_of_default_enabled (db : Database) (node peer : models.Node)
    (hok : (GetDefaultPolicy db node.Network models.DevicePolicy).2 = none)
    (hen : (GetDefaultPolicy db node.Network models.DevicePolicy).1.Enabled = true) :
    IsNodeAllowedToCommunicate db node peer = true := by
  unfold IsNodeAllowedToCommunicate
  simp [hok, hen]

/-- C1, checked on a store whose default device policy is enabled and two
parties without tags, the peer in another network. -/
theorem isNodeAllowed_of_default_enabled_witness :
    (GetDefaultPolicy Sample.openStore "skynet" models.DevicePolicy).2 = none ∧
    (GetDefaultPolicy Sample.openStore "skynet" models.DevicePolicy).1.Enabled = true ∧
    IsNodeAllowedToCommunicate Sample.openStore
      { Network := "skynet", Tags := [] } { Network := "othernet", Tags := [] } = true :=
  ⟨by decide, by decide,
    isNodeAllowed_of_default_enabled Sample.openStore
      { Network := "skynet", Tags := [] } { Network := "othernet", Tags := [] }
      (by decide) (by decide)⟩

/-- C2: with the default device policy of "skynet" disabled and a device policy
of "skynet" whose src tag has value "tagA" and whose dst tag has value "tagB",
a node carrying "tagA" and a peer carrying "tagB" are refused: the key sets are
built from the tags' kinds, so the values are never compared. -/
theorem isNodeAllowed_value_match_refused :
    (GetDefaultPolicy Sample.closedStore "skynet" models.DevicePolicy).2 = none ∧
    (GetDefaultPolicy Sample.closedStore "skynet" models.DevicePolicy).1.Enabled = false ∧
    Sample.aToB ∈ listDevicePolicies Sample.closedStore "skynet" ∧
    (∃ s ∈ Sample.aToB.Src, s.Value = "tagA") ∧
    (∃ d ∈ Sample.aToB.Dst, d.Value = "tagB") ∧
    convAclTagToValueMap Sample.aToB.Src = ["device"] ∧
    convAclTagToValueMap Sample.aToB.Dst = ["device"] ∧
    IsNodeAllowedToCommunicate Sample.closedStore
      (Sample.skynetNode ["tagA"]) (Sample.skynetNode ["tagB"]) = false := by
  decide

/-- C3: "skynet" has no default device policy and its only device policy has
src value "tagA" and dst value "tagB", so no policy has a src value carried by
one party together with a dst value carried by the other; yet a node and a peer
whose tag is named like the device kind are allowed: the key sets hold the
tags' kinds. -/
theorem isNodeAllowed_kind_match_allowed :
    (GetDefaultPolicy Sample.plainStore "skynet" models.DevicePolicy).2 ≠ none ∧
    listDevicePolicies Sample.plainStore "skynet" = [Sample.aToB] ∧
    (∀ p ∈ listDevicePolicies Sample.plainStore "skynet",
      ¬ ((∃ s ∈ p.Src, s.Value ∈ [models.DeviceAclID]) ∧
         (∃ d ∈ p.Dst, d.Value ∈ [models.DeviceAclID]))) ∧
    IsNodeAllowedToCommunicate Sample.plainStore
      (Sample.skynetNode [models.DeviceAclID]) (Sample.skynetNode [models.DeviceAclID])
      = true := by
  decide

/-- C4: on the empty store, after `CreateDefaultAclNetworkPolicies` for "skynet"
both writes have succeeded (the policy collection holds the two records), yet
`GetDefaultPolicy` fails for both rule types: the listing scans the other
collection. -/
theorem getDefaultPolicy_after_createDefaults_fails :
    (CreateDefaultAclNetworkPolicies Sample.emptyStore "skynet"
        Sample.aToB.ID Sample.usersOther.ID 1 2).acls.length = 2 ∧
    GetDefaultPolicy
      (CreateDefaultAclNetworkPolicies Sample.emptyStore "skynet"
        Sample.aToB.ID Sample.usersOther.ID 1 2) "skynet" models.DevicePolicy
      = (models.Acl.zero, some (Error.text "default rule not found")) ∧
    GetDefaultPolicy
      (CreateDefaultAclNetworkPolicies Sample.emptyStore "skynet"
        Sample.aToB.ID Sample.usersOther.ID 1 2) "skynet" models.UserPolicy
      = (models.Acl.zero, some (Error.text "default rule not found")) := by
  decide

/-- C5: after a successful `UpdateAcl`, `GetAcl` on the existing policy's
identifier succeeds and the stored record has the incoming name when that is
not empty and the existing name when it is, and the incoming `Src`, `Dst`,
`AllowedDirection` and `Enabled`, whatever their values. -/
theorem updateAcl_mutable_fields (db : Database) (newAcl acl : models.Acl)
    (h : (UpdateAcl db newAcl acl).2 = none) :
    (GetAcl (UpdateAcl db newAcl acl).1 acl.ID.String).2 = none ∧
    (newAcl.Name ≠ "" →
      (GetAcl (UpdateAcl db newAcl acl).1 acl.ID.String).1.Name = newAcl.Name) ∧
    (newAcl.Name = "" →
      (GetAcl (UpdateAcl db newAcl acl).1 acl.ID.String).1.Name = acl.Name) ∧
    (GetAcl (UpdateAcl db newAcl acl).1 acl.ID.String).1.Src = newAcl.Src ∧
    (GetAcl (UpdateAcl db newAcl acl).1 acl.ID.String).1.Dst = newAcl.Dst ∧
    (GetAcl (UpdateAcl db newAcl acl).1 acl.ID.String).1.AllowedDirection
      = newAcl.AllowedDirection ∧
    (GetAcl (UpdateAcl db newAcl acl).1 acl.ID.String).1.Enabled = newAcl.Enabled := by
  have hw := updateAcl_ok db newAcl acl h
  rw [getAcl_updateAcl db newAcl acl hw]
  refine ⟨rfl, ?_, ?_, rfl, rfl, rfl, rfl⟩
  · intro hn
    simp [hn]
  · intro hn
    simp [hn]

/-- C5, checked on an update with an empty name and an empty source list: the
stored name is kept and the stored source list becomes empty. -/
theorem updateAcl_mutable_fields_witness :
    (UpdateAcl Sample.aclStore Sample.blankUpdate Sample.aToB).2 = none ∧
    (GetAcl (UpdateAcl Sample.aclStore Sample.blankUpdate Sample.aToB).1
      Sample.aToB.ID.String).1.Name = "a-to-b" ∧
    (GetAcl (UpdateAcl Sample.aclStore Sample.blankUpdate Sample.aToB).1
      Sample.aToB.ID.String).1.Src = [] :=
  ⟨by decide,
    (updateAcl_mutable_fields Sample.aclStore Sample.blankUpdate Sample.aToB
      (by decide)).2.2.1 (by decide),
    (updateAcl_mutable_fields Sample.aclStore Sample.blankUpdate Sample.aToB
      (by decide)).2.2.2.1⟩

/-- C6: the record written by a successful `UpdateAcl` is stored under the
existing policy's identifier and has the existing policy's `ID`, `NetworkID`,
`RuleType`, `Default`, `CreatedBy` and `CreatedAt`, whatever the incoming
policy holds in those fields; no record under another key and nothing in the
other collection changes. -/
theorem updateAcl_immutable_fields (db : Database) (newAcl acl : models.Acl)
    (h : (UpdateAcl db newAcl acl).2 = none) :
    (∃ stored,
      Table.get (UpdateAcl db newAcl acl).1.acls acl.ID.String
        = some (Encoded.policy stored) ∧
      GetAcl (UpdateAcl db newAcl acl).1 acl.ID.String = (stored, none) ∧
      stored.ID = acl.ID ∧ stored.NetworkID = acl.NetworkID ∧
      stored.RuleType = acl.RuleType ∧ stored.Default = acl.Default ∧
      stored.CreatedBy = acl.CreatedBy ∧ stored.CreatedAt = acl.CreatedAt) ∧
    (∀ key, key ≠ acl.ID.String →
      Table.get (UpdateAcl db newAcl acl).1.acls key = Table.get db.acls key) ∧
    (UpdateAcl db newAcl acl).1.tags = db.tags := by
  have hw := updateAcl_ok db newAcl acl h
  rw [getAcl_updateAcl db newAcl acl hw, updateAcl_eq db newAcl acl hw]
  refine ⟨⟨_, Table.get_put_self _ _ _, rfl, rfl, rfl, rfl, rfl, rfl, rfl⟩, ?_, rfl⟩
  · intro key hkey
    exact Table.get_put_other _ _ _ _ hkey

/-- C6, checked on an update whose incoming policy differs from the existing one
in every immutable field. -/
theorem updateAcl_immutable_fields_witness :
    (UpdateAcl Sample.aclStore Sample.blankUpdate Sample.aToB).2 = none ∧
    Sample.blankUpdate.ID ≠ Sample.aToB.ID ∧
    ∃ stored,
      Table.get (UpdateAcl Sample.aclStore Sample.blankUpdate Sample.aToB).1.acls
        Sample.aToB.ID.String = some (Encoded.policy stored) ∧
      GetAcl (UpdateAcl Sample.aclStore Sample.blankUpdate Sample.aToB).1
        Sample.aToB.ID.String = (stored, none) ∧
      stored.ID = Sample.aToB.ID ∧ stored.NetworkID = Sample.aToB.NetworkID ∧
      stored.RuleType = Sample.aToB.RuleType ∧ stored.Default = Sample.aToB.Default ∧
      stored.CreatedBy = Sample.aToB.CreatedBy ∧
      stored.CreatedAt = Sample.aToB.CreatedAt :=
  ⟨by decide, by decide,
    (updateAcl_immutable_fields Sample.aclStore Sample.blankUpdate Sample.aToB
      (by decide)).1⟩

/-- C7: when `InsertAcl` succeeds, `GetAcl` of the policy's identifier on the
resulting store succeeds and returns the policy, equal in every field. -/
theorem insertAcl_getAcl_roundtrip (db : Database) (p : models.Acl)
    (h : (InsertAcl db p).2 = none) :
    GetAcl (InsertAcl db p).1 p.ID.String = (p, none) := by
  unfold InsertAcl json.Marshal database.Insert at *
  cases hw : db.writeFault with
  | some msg => simp [hw] at h
  | none =>
    simp [GetAcl, database.FetchRecord, database.table_setTable, Table.get_put_self,
      json.Unmarshal]

/-- C7, checked by inserting a user policy into a store that holds another
policy. -/
theorem insertAcl_getAcl_roundtrip_witness :
    (InsertAcl Sample.aclStore Sample.usersOther).2 = none ∧
    GetAcl (InsertAcl Sample.aclStore Sample.usersOther).1 Sample.usersOther.ID.String
      = (Sample.usersOther, none) :=
  ⟨by decide,
    insertAcl_getAcl_roundtrip Sample.aclStore Sample.usersOther (by decide)⟩

/-- C8: `DeleteAcl` of a policy with no record under its identifier fails with
the not-found error and leaves the store as it was; `DeleteAcl` of a stored
policy succeeds, and repeating it fails with the not-found error and changes
nothing more. -/
theorem deleteAcl_notFound (db : Database) (p : models.Acl) :
    (Table.get db.acls p.ID.String = none →
      DeleteAcl db p = (db, some Error.noRecord)) ∧
    (Table.get db.acls p.ID.String ≠ none →
      (DeleteAcl db p).2 = none ∧
      DeleteAcl (DeleteAcl db p).1 p = ((DeleteAcl db p).1, some Error.noRecord)) := by
  constructor
  · intro habs
    simp [DeleteAcl, database.DeleteRecord, database.table, habs]
  · intro hpres
    obtain ⟨v, hv⟩ := Option.ne_none_iff_exists'.mp hpres
    have h1 : DeleteAcl db p
        = (database.setTable db ACLS_TABLE_NAME (Table.erase p.ID.String db.acls), none) := by
      simp [DeleteAcl, database.DeleteRecord, database.table, hv]
    rw [h1]
    refine ⟨rfl, ?_⟩
    simp [DeleteAcl, database.DeleteRecord, database.table_setTable, Table.get_erase_self]

/-- C8, checked on a stored policy (second deletion) and on a policy that was
never stored. -/
theorem deleteAcl_notFound_witness :
    Table.get Sample.aclStore.acls Sample.aToB.ID.String ≠ none ∧
    (DeleteAcl (DeleteAcl Sample.aclStore Sample.aToB).1 Sample.aToB).2
      = some Error.noRecord ∧
    DeleteAcl Sample.aclStore Sample.usersOther
      = (Sample.aclStore, some Error.noRecord) :=
  ⟨by decide,
    congrArg Prod.snd
      ((deleteAcl_notFound Sample.aclStore Sample.aToB).2 (by decide)).2,
    (deleteAcl_notFound Sample.aclStore Sample.usersOther).1 (by decide)⟩

/-- C9: when the scan of the listed collection succeeds (or reports an empty
collection), `ListAcls` returns, without error, exactly the policies held by the
scanned records whose `NetworkID` is the requested one, in scan order: a policy
is listed as many times as it is scanned when it belongs to the network, and
never otherwise. -/
theorem listAcls_exact (db : Database) (netID : models.NetworkID)
    (hscan : (database.FetchRecords db TAG_TABLE_NAME).2 = none ∨
      database.IsEmptyRecord (database.FetchRecords db TAG_TABLE_NAME).2 = true) :
    ListAcls db netID =
      ((spec_storedPolicies (database.FetchRecords db TAG_TABLE_NAME).1).filter
        (fun a => decide (a.NetworkID = netID)), none) ∧
    (∀ a, a ∈ (ListAcls db netID).1 ↔
      a ∈ spec_storedPolicies (database.FetchRecords db TAG_TABLE_NAME).1 ∧
        a.NetworkID = netID) ∧
    (∀ a, a.NetworkID = netID →
      (ListAcls db netID).1.count a
        = (spec_storedPolicies (database.FetchRecords db TAG_TABLE_NAME).1).count a) ∧
    (∀ a, a.NetworkID ≠ netID → (ListAcls db netID).1.count a = 0) := by
  have heq := listAcls_of_scan db netID hscan
  refine ⟨heq, ?_, ?_, ?_⟩
  · intro a
    rw [heq]
    simp [List.mem_filter]
  · intro a ha
    rw [heq]
    exact List.count_filter (by simpa using ha)
  · intro a ha
    rw [heq]
    apply List.count_eq_zero_of_not_mem
    simp [List.mem_filter, ha]

/-- C9, checked on a scanned collection holding policies of two networks and an
undecodable record. -/
theorem listAcls_exact_witness :
    (database.FetchRecords Sample.mixedStore TAG_TABLE_NAME).2 = none ∧
    ListAcls Sample.mixedStore "skynet" = ([Sample.aToB], none) ∧
    ListAcls Sample.mixedStore "skynet" =
      ((spec_storedPolicies
          (database.FetchRecords Sample.mixedStore TAG_TABLE_NAME).1).filter
        (fun a => decide (a.NetworkID = "skynet")), none) :=
  ⟨by decide, by decide,
    (listAcls_exact Sample.mixedStore "skynet" (Or.inl (by decide))).1⟩

/-- C10: `ListAcls` returns an error exactly when the scan fails with an error
that is not the empty-collection one, and then returns that error; when the
scan reports an empty collection, and when the scan succeeds but no scanned
policy belongs to the network, it returns the empty sequence and no error. -/
theorem listAcls_error_iff (db : Database) (netID : models.NetworkID) :
    ((ListAcls db netID).2 ≠ none ↔
      ((database.FetchRecords db TAG_TABLE_NAME).2 ≠ none ∧
        database.IsEmptyRecord (database.FetchRecords db TAG_TABLE_NAME).2 = false)) ∧
    ((ListAcls db netID).2 ≠ none →
      (ListAcls db netID).2 = (database.FetchRecords db TAG_TABLE_NAME).2) ∧
    (database.IsEmptyRecord (database.FetchRecords db TAG_TABLE_NAME).2 = true →
      ListAcls db netID = ([], none)) ∧
    ((database.FetchRecords db TAG_TABLE_NAME).2 = none →
      (∀ a ∈ spec_storedPolicies (database.FetchRecords db TAG_TABLE_NAME).1,
        a.NetworkID ≠ netID) →
      ListAcls db netID = ([], none)) := by
  refine ⟨?_, ?_, ?_, ?_⟩
  · unfold ListAcls
    generalize database.FetchRecords db TAG_TABLE_NAME = r
    obtain ⟨data, err⟩ := r
    cases err with
    | none => simp
    | some e => cases he : database.IsEmptyRecord (some e) <;> simp [he]
  · unfold ListAcls
    generalize database.FetchRecords db TAG_TABLE_NAME = r
    obtain ⟨data, err⟩ := r
    cases err with
    | none => simp
    | some e => cases he : database.IsEmptyRecord (some e) <;> simp [he]
  · intro hempty
    have hdata : (database.FetchRecords db TAG_TABLE_NAME).1 = [] := by
      unfold database.FetchRecords at hempty ⊢
      cases hs : db.scanFault with
      | some msg => simp [hs, database.IsEmptyRecord] at hempty
      | none =>
        by_cases he : (database.table db TAG_TABLE_NAME).isEmpty = true
        · simp [he]
        · simp [hs, he, database.IsEmptyRecord] at hempty
    unfold ListAcls
    simp only [hempty, not_true_eq_false, and_false, if_false, hdata, List.filterMap_nil]
  · intro hscan hnone
    rw [listAcls_of_scan db netID (Or.inl hscan)]
    congr 1
    apply List.filter_eq_nil_iff.mpr
    intro a ha
    simpa using hnone a ha

/-- C10, checked on a store whose scan fails, on the empty store, and on a
network none of whose policies is in the scanned collection. -/
theorem listAcls_error_iff_witness :
    (ListAcls Sample.brokenStore "skynet").2 ≠ none ∧
    database.IsEmptyRecord (database.FetchRecords Sample.emptyStore TAG_TABLE_NAME).2
      = true ∧
    ListAcls Sample.emptyStore "skynet" = ([], none) ∧
    ListAcls Sample.mixedStore "thirdnet" = ([], none) :=
  ⟨(listAcls_error_iff Sample.brokenStore "skynet").1.mpr ⟨by decide, by decide⟩,
    by decide,
    (listAcls_error_iff Sample.emptyStore "skynet").2.2.1 (by decide),
    (listAcls_error_iff Sample.mixedStore "thirdnet").2.2.2 (by decide) (by decide)⟩

/-! ### Facts about listing and the default policy -/

/-- When the scan fails with an error other than the empty-collection one,
`ListAcls` returns no policy. -/
theorem listAcls_of_scan_error (db : Database) (netID : models.NetworkID)
    (hscan : ¬ ((database.FetchRecords db TAG_TABLE_NAME).2 = none ∨
      database.IsEmptyRecord (database.FetchRecords db TAG_TABLE_NAME).2 = true)) :
    (ListAcls db netID).1 = [] := by
  unfold ListAcls
  have hc : (database.FetchRecords db TAG_TABLE_NAME).2 ≠ none ∧
      ¬ database.IsEmptyRecord (database.FetchRecords db TAG_TABLE_NAME).2 = true :=
    ⟨fun h => hscan (Or.inl h), fun h => hscan (Or.inr h)⟩
  show (if (database.FetchRecords db TAG_TABLE_NAME).2 ≠ none ∧
      ¬ database.IsEmptyRecord (database.FetchRecords db TAG_TABLE_NAME).2 = true
    then (([] : List models.Acl), (database.FetchRecords db TAG_TABLE_NAME).2)
    else _).1 = []
  rw [if_pos hc]

/-- Every policy `ListAcls` returns belongs to the requested network. -/
theorem listAcls_networkID (db : Database) (netID : models.NetworkID) (a : models.Acl)
    (ha : a ∈ (ListAcls db netID).1) : a.NetworkID = netID := by
  by_cases hscan : (database.FetchRecords db TAG_TABLE_NAME).2 = none ∨
      database.IsEmptyRecord (database.FetchRecords db TAG_TABLE_NAME).2 = true
  · rw [listAcls_of_scan db netID hscan] at ha
    simpa using (List.mem_filter.mp ha).2
  · rw [listAcls_of_scan_error db netID hscan] at ha
    simp at ha

/-- What `find?` returns is the first entry that satisfies the test. -/
theorem find?_first {α : Type} (p : α → Bool) (l : List α) (a : α)
    (h : l.find? p = some a) :
    ∃ pre post, l = pre ++ a :: post ∧ (∀ b ∈ pre, p b = false) ∧ p a = true := by
  induction l with
  | nil => simp at h
  | cons x rest ih =>
    cases hx : p x
    · rw [List.find?_cons_of_neg _ (by simp [hx])] at h
      obtain ⟨pre, post, h1, h2, h3⟩ := ih h
      refine ⟨x :: pre, post, by simp [h1], ?_, h3⟩
      intro b hb
      rcases List.mem_cons.mp hb with rfl | hb
      · exact hx
      · exact h2 b hb
    · rw [List.find?_cons_of_pos _ hx] at h
      cases h
      exact ⟨[], rest, rfl, by simp, hx⟩

/-- The function `GetDefaultPolicy` is a search of the list `ListAcls` returns. -/
theorem getDefaultPolicy_eq (db : Database) (netID : models.NetworkID)
    (ruleType : models.AclPolicyType) :
    GetDefaultPolicy db netID ruleType =
      match (ListAcls db netID).1.find?
          (fun acl => acl.Default && decide (acl.RuleType = ruleType)) with
      | some acl => (acl, none)
      | none => (models.Acl.zero, some (Error.text "default rule not found")) := rfl

/-- C11: `GetDefaultPolicy` succeeds exactly when the list `ListAcls` returns for
the network holds a policy with `Default = true` and the requested rule type;
it then returns the first such policy of that list, which has the requested
network, `Default = true` and the requested rule type; otherwise it returns the
zero policy and the error "default rule not found". -/
theorem getDefaultPolicy_first (db : Database) (netID : models.NetworkID)
    (ruleType : models.AclPolicyType) :
    ((GetDefaultPolicy db netID ruleType).2 = none ↔
      ∃ a ∈ (ListAcls db netID).1, a.Default = true ∧ a.RuleType = ruleType) ∧
    ((GetDefaultPolicy db netID ruleType).2 = none →
      ∃ pre post,
        (ListAcls db netID).1 = pre ++ (GetDefaultPolicy db netID ruleType).1 :: post ∧
        (∀ b ∈ pre, ¬ (b.Default = true ∧ b.RuleType = ruleType)) ∧
        (GetDefaultPolicy db netID ruleType).1.Default = true ∧
        (GetDefaultPolicy db netID ruleType).1.RuleType = ruleType ∧
        (GetDefaultPolicy db netID ruleType).1.NetworkID = netID) ∧
    ((GetDefaultPolicy db netID ruleType).2 ≠ none →
      GetDefaultPolicy db netID ruleType
        = (models.Acl.zero, some (Error.text "default rule not found"))) := by
  have hnet := listAcls_networkID db netID
  rw [getDefaultPolicy_eq]
  cases hf : (ListAcls db netID).1.find?
      (fun acl => acl.Default && decide (acl.RuleType = ruleType)) with
  | none =>
    refine ⟨?_, ?_, ?_⟩
    · constructor
      · intro h
        simp at h
      · rintro ⟨a, ha, hd, ht⟩
        have := List.find?_eq_none.mp hf a ha
        simp [hd, ht] at this
    · intro h
      simp at h
    · intro _
      rfl
  | some acl =>
    obtain ⟨pre, post, h1, h2, h3⟩ := find?_first _ _ _ hf
    simp only [Bool.and_eq_true, decide_eq_true_eq] at h3
    have hmem : acl ∈ (ListAcls db netID).1 := by rw [h1]; simp
    refine ⟨?_, ?_, ?_⟩
    · exact ⟨fun _ => ⟨acl, hmem, h3.1, h3.2⟩, fun _ => rfl⟩
    · intro _
      refine ⟨pre, post, h1, ?_, h3.1, h3.2, hnet acl hmem⟩
      intro b hb hbad
      have := h2 b hb
      simp [hbad.1, hbad.2] at this
    · intro h
      exact absurd rfl h

/-- C11, checked on a store whose scanned collection holds a default device
policy and on a store that holds none. -/
theorem getDefaultPolicy_first_witness :
    (∃ a ∈ (ListAcls Sample.closedStore "skynet").1,
      a.Default = true ∧ a.RuleType = models.DevicePolicy) ∧
    GetDefaultPolicy Sample.closedStore "skynet" models.DevicePolicy
      = (Sample.allNodes false, none) ∧
    GetDefaultPolicy Sample.plainStore "skynet" models.DevicePolicy
      = (models.Acl.zero, some (Error.text "default rule not found")) :=
  ⟨(getDefaultPolicy_first Sample.closedStore "skynet" models.DevicePolicy).1.mp
      (by decide),
    by decide,
    (getDefaultPolicy_first Sample.plainStore "skynet" models.DevicePolicy).2.2
      (by decide)⟩

/-! ### Facts about the validator and the default policies -/

theorem isAclPolicyValid_eq (r : Resolver) (acl : models.Acl) :
    IsAclPolicyValid r acl =
      decide (acl.RuleType = models.UserPolicy ∨ acl.RuleType = models.DevicePolicy) := by
  unfold IsAclPolicyValid IsAclPolicyValid.run
  by_cases hu : acl.RuleType = models.UserPolicy
  · simp [hu]
  · by_cases hd : acl.RuleType = models.DevicePolicy
    · rw [if_neg hu, if_pos hd]
      simp [hd]
    · simp [hu, hd]

/-- C12: `IsAclPolicyValid` returns true for every policy whose rule type is
`UserPolicy` or `DevicePolicy`, whatever its tags and whatever the resolver
answers, and returns false exactly when the rule type is neither. -/
theorem isAclPolicyValid_iff_ruleType (r : Resolver) (acl : models.Acl) :
    (IsAclPolicyValid r acl = true ↔
      (acl.RuleType = models.UserPolicy ∨ acl.RuleType = models.DevicePolicy)) ∧
    (IsAclPolicyValid r acl = false ↔
      (acl.RuleType ≠ models.UserPolicy ∧ acl.RuleType ≠ models.DevicePolicy)) := by
  rw [isAclPolicyValid_eq]
  constructor
  · simp
  · simp

/-- C13: a device policy whose src tag has the user kind and an empty value and
whose dst tag has an empty kind is reported valid, although no user, group or
tag exists: both loops stop at their first entry and `isValid` is set to true
all the same. -/
theorem isAclPolicyValid_accepts_illegal_tags :
    Sample.illFormed.RuleType = models.DevicePolicy ∧
    (∃ s ∈ Sample.illFormed.Src, s.ID ≠ models.DeviceAclID ∧ s.Value = "") ∧
    (∃ d ∈ Sample.illFormed.Dst, d.ID = "") ∧
    IsAclPolicyValid.run Sample.nothingExists Sample.illFormed
      = { srcPassed := [], dstPassed := [], isValid := true } ∧
    IsAclPolicyValid Sample.nothingExists Sample.illFormed = true := by
  decide

theorem Table.put_fresh (key : String) (value : Encoded) (t : Table)
    (h : Table.get t key = none) : Table.put key value t = t ++ [(key, value)] := by
  induction t with
  | nil => rfl
  | cons kv rest ih =>
    obtain ⟨k, v⟩ := kv
    by_cases hk : k = key
    · subst hk
      simp [Table.get, List.lookup] at h
    · have h2 : (key == k) = false := by
        simpa using fun e => hk e.symm
      simp only [Table.get, List.lookup, h2] at h
      simp only [Table.put, hk, if_false, List.cons_append]
      rw [ih h]

theorem Table.get_append_fresh (key other : String) (value : Encoded) (t : Table)
    (h : Table.get t other = none) (hne : other ≠ key) :
    Table.get (t ++ [(key, value)]) other = none := by
  induction t with
  | nil =>
    have h2 : (other == key) = false := by simpa using hne
    simp [Table.get, List.lookup, h2]
  | cons kv rest ih =>
    obtain ⟨k, v⟩ := kv
    cases hk : (other == k)
    · simp only [Table.get, List.lookup, hk] at h
      simp only [Table.get, List.cons_append, List.lookup, hk]
      exact ih h
    · simp [Table.get, List.lookup, hk] at h

theorem uuid.UUID.String_ne (a b : uuid.UUID) (h : a ≠ b) : a.String ≠ b.String := by
  intro he
  apply h
  cases a
  cases b
  simp only [uuid.UUID.String] at he
  rw [he]

theorem insertAcl_eq (db : Database) (a : models.Acl) (hw : db.writeFault = none) :
    InsertAcl db a =
      ({ db with acls := Table.put a.ID.String (Encoded.policy a) db.acls }, none) := by
  simp [InsertAcl, json.Marshal, database.Insert, hw, database.table, database.setTable]

/-- C14: on a store whose writes succeed, with two distinct identifiers that are
not keys of the policy collection, `CreateDefaultAclNetworkPolicies` adds to the
policy collection the record "all-nodes" and the record "all-users" with the
stated fields, each under its identifier, and changes nothing else: the
collection is the old one followed by the two records, and the other collection
and the fault state are as before. -/
theorem createDefaults_adds_two (db : Database) (netID : models.NetworkID)
    (id1 id2 : uuid.UUID) (now1 now2 : time.Time)
    (hw : db.writeFault = none) (hne : id1 ≠ id2)
    (h1 : Table.get db.acls id1.String = none)
    (h2 : Table.get db.acls id2.String = none) :
    CreateDefaultAclNetworkPolicies db netID id1 id2 now1 now2 =
      { db with
        acls := db.acls ++
          [(id1.String, Encoded.policy
              { ID := id1, Default := true, Name := "all-nodes", NetworkID := netID,
                RuleType := models.DevicePolicy,
                Src := [{ ID := models.DeviceAclID, Value := "*" }],
                Dst := [{ ID := models.DeviceAclID, Value := "*" }],
                AllowedDirection := models.TrafficDirectionBi,
                Enabled := true, CreatedBy := "auto", CreatedAt := now1 }),
           (id2.String, Encoded.policy
              { ID := id2, Default := true, Name := "all-users", NetworkID := netID,
                RuleType := models.UserPolicy,
                Src := [{ ID := models.UserAclID, Value := "*" },
                        { ID := models.UserGroupAclID, Value := "*" }],
                Dst := [{ ID := models.DeviceAclID, Value := "*" }],
                AllowedDirection := models.TrafficDirectionUni,
                Enabled := true, CreatedBy := "auto", CreatedAt := now2 })] } := by
  unfold CreateDefaultAclNetworkPolicies
  simp only [insertAcl_eq db _ hw]
  rw [insertAcl_eq _ _ (by exact hw)]
  simp only [Table.put_fresh _ _ _ h1]
  rw [Table.put_fresh _ _ _
    (Table.get_append_fresh _ _ _ _ h2 (uuid.UUID.String_ne _ _ (Ne.symm hne)))]
  simp

/-- C14, checked on a store whose policy collection already holds a policy. -/
theorem createDefaults_adds_two_witness :
    (CreateDefaultAclNetworkPolicies Sample.aclStore "skynet"
        Sample.usersOther.ID Sample.wildUsers.ID 1 2).acls.length = 3 ∧
    (CreateDefaultAclNetworkPolicies Sample.aclStore "skynet"
        Sample.usersOther.ID Sample.wildUsers.ID 1 2).tags = [] ∧
    (CreateDefaultAclNetworkPolicies Sample.aclStore "skynet"
        Sample.usersOther.ID Sample.wildUsers.ID 1 2).acls.take 1 = Sample.aclStore.acls :=
  ⟨by
      rw [createDefaults_adds_two Sample.aclStore "skynet"
        Sample.usersOther.ID Sample.wildUsers.ID 1 2
        (by decide) (by decide) (by decide) (by decide)]
      decide,
    by decide, by decide⟩

/-- C15: on the empty store, after `CreateDefaultAclNetworkPolicies` and then
`DeleteDefaultNetworkPolicies` for "skynet", the store is as it was before the
deletion: `GetAcl` still succeeds for both created identifiers and the policy
collection still holds default policies of the network, because the policies
to delete are listed from the other collection. -/
theorem deleteDefaults_leaves_created_defaults :
    DeleteDefaultNetworkPolicies
      (CreateDefaultAclNetworkPolicies Sample.emptyStore "skynet"
        Sample.aToB.ID Sample.usersOther.ID 1 2) "skynet"
      = CreateDefaultAclNetworkPolicies Sample.emptyStore "skynet"
        Sample.aToB.ID Sample.usersOther.ID 1 2 ∧
    (GetAcl (DeleteDefaultNetworkPolicies
      (CreateDefaultAclNetworkPolicies Sample.emptyStore "skynet"
        Sample.aToB.ID Sample.usersOther.ID 1 2) "skynet") Sample.aToB.ID.String).2 = none ∧
    (GetAcl (DeleteDefaultNetworkPolicies
      (CreateDefaultAclNetworkPolicies Sample.emptyStore "skynet"
        Sample.aToB.ID Sample.usersOther.ID 1 2) "skynet") Sample.usersOther.ID.String).2
      = none ∧
    (∃ a ∈ spec_storedPolicies ((DeleteDefaultNetworkPolicies
      (CreateDefaultAclNetworkPolicies Sample.emptyStore "skynet"
        Sample.aToB.ID Sample.usersOther.ID 1 2) "skynet").acls.map Prod.snd),
      a.NetworkID = "skynet" ∧ a.Default = true) := by
  decide

/-! ### Facts about the listing functions -/

/-- A listing loop that keeps the decodable records passing a test keeps the
scanned policies that pass it. -/
theorem scan_loop_eq (data : List Encoded) (keep : models.Acl → Bool) :
    data.filterMap (fun dataI =>
        match json.Unmarshal dataI models.Acl.zero with
        | (_, some _) => none
        | (acl, none) => if keep acl = true then some acl else none)
      = (spec_storedPolicies data).filter keep := by
  induction data with
  | nil => rfl
  | cons d rest ih =>
    cases d with
    | policy a =>
      cases hk : keep a
      · simp [spec_storedPolicies, List.filterMap_cons, json.Unmarshal, hk] at ih ⊢
        exact ih
      · simp [spec_storedPolicies, List.filterMap_cons, json.Unmarshal, hk] at ih ⊢
        exact ih
    | malformed raw =>
      simp [spec_storedPolicies, List.filterMap_cons, json.Unmarshal] at ih ⊢
      exact ih

theorem listAcls_fst_eq (db : Database) (netID : models.NetworkID) :
    (ListAcls db netID).1 =
      (spec_scannedPolicies db).filter (fun a => decide (a.NetworkID = netID)) := by
  unfold spec_scannedPolicies
  by_cases hc : (database.FetchRecords db TAG_TABLE_NAME).2 ≠ none ∧
      ¬ database.IsEmptyRecord (database.FetchRecords db TAG_TABLE_NAME).2 = true
  · rw [if_pos hc, listAcls_of_scan_error db netID (by tauto)]
    rfl
  · rw [if_neg hc, listAcls_of_scan db netID (by tauto)]

theorem listUserPoliciesByNetwork_eq (db : Database) (netID : models.NetworkID) :
    ListUserPoliciesByNetwork db netID =
      (spec_scannedPolicies db).filter (fun a =>
        decide (a.NetworkID = netID ∧ a.RuleType = models.UserPolicy)) := by
  unfold spec_scannedPolicies
  by_cases hc : (database.FetchRecords db TAG_TABLE_NAME).2 ≠ none ∧
      ¬ database.IsEmptyRecord (database.FetchRecords db TAG_TABLE_NAME).2 = true
  · rw [if_pos hc]
    show (if (database.FetchRecords db TAG_TABLE_NAME).2 ≠ none ∧
      ¬ database.IsEmptyRecord (database.FetchRecords db TAG_TABLE_NAME).2 = true
      then ([] : List models.Acl) else _) = _
    rw [if_pos hc]
    rfl
  · rw [if_neg hc, ← scan_loop_eq]
    show (if (database.FetchRecords db TAG_TABLE_NAME).2 ≠ none ∧
      ¬ database.IsEmptyRecord (database.FetchRecords db TAG_TABLE_NAME).2 = true
      then ([] : List models.Acl) else _) = _
    rw [if_neg hc]
    simp only [decide_eq_true_eq]
    rfl

theorem listDevicePolicies_eq (db : Database) (netID : models.NetworkID) :
    listDevicePolicies db netID =
      (spec_scannedPolicies db).filter (fun a =>
        decide (a.NetworkID = netID ∧ a.RuleType = models.DevicePolicy)) := by
  unfold spec_scannedPolicies
  by_cases hc : (database.FetchRecords db TAG_TABLE_NAME).2 ≠ none ∧
      ¬ database.IsEmptyRecord (database.FetchRecords db TAG_TABLE_NAME).2 = true
  · rw [if_pos hc]
    show (if (database.FetchRecords db TAG_TABLE_NAME).2 ≠ none ∧
      ¬ database.IsEmptyRecord (database.FetchRecords db TAG_TABLE_NAME).2 = true
      then ([] : List models.Acl) else _) = _
    rw [if_pos hc]
    rfl
  · rw [if_neg hc, ← scan_loop_eq]
    show (if (database.FetchRecords db TAG_TABLE_NAME).2 ≠ none ∧
      ¬ database.IsEmptyRecord (database.FetchRecords db TAG_TABLE_NAME).2 = true
      then ([] : List models.Acl) else _) = _
    rw [if_neg hc]
    simp only [decide_eq_true_eq]
    rfl

theorem listUserPolicies_eq (db : Database) (u : models.User) :
    ListUserPolicies db u =
      (spec_scannedPolicies db).filter (fun a =>
        decide (a.RuleType = models.UserPolicy ∧
          (u.UserName ∈ convAclTagToValueMap a.Src ∨
            ∃ gID ∈ u.UserGroups,
              models.UserGroupID.String gID ∈ convAclTagToValueMap a.Src))) := by
  unfold spec_scannedPolicies
  by_cases hc : (database.FetchRecords db TAG_TABLE_NAME).2 ≠ none ∧
      ¬ database.IsEmptyRecord (database.FetchRecords db TAG_TABLE_NAME).2 = true
  · rw [if_pos hc]
    show (if (database.FetchRecords db TAG_TABLE_NAME).2 ≠ none ∧
      ¬ database.IsEmptyRecord (database.FetchRecords db TAG_TABLE_NAME).2 = true
      then ([] : List models.Acl) else _) = _
    rw [if_pos hc]
    rfl
  · rw [if_neg hc, ← scan_loop_eq]
    show (if (database.FetchRecords db TAG_TABLE_NAME).2 ≠ none ∧
      ¬ database.IsEmptyRecord (database.FetchRecords db TAG_TABLE_NAME).2 = true
      then ([] : List models.Acl) else _) = _
    rw [if_neg hc]
    congr 1
    funext dataI
    cases dataI with
    | malformed raw => rfl
    | policy a =>
      simp only [json.Unmarshal, decide_eq_true_eq]
      by_cases h1 : a.RuleType = models.UserPolicy
      · by_cases h2 : u.UserName ∈ convAclTagToValueMap a.Src
        · simp [h1, h2]
        · by_cases h3 : ∃ gID ∈ u.UserGroups,
              models.UserGroupID.String gID ∈ convAclTagToValueMap a.Src
          · have h3b : (u.UserGroups.any (fun gID =>
                decide (models.UserGroupID.String gID ∈ convAclTagToValueMap a.Src)))
                = true := by
              simpa [List.any_eq_true] using h3
            simp only [h1, h2, h3b, h3, if_true, if_false, or_true, and_self]
          · have h3b : (u.UserGroups.any (fun gID =>
                decide (models.UserGroupID.String gID ∈ convAclTagToValueMap a.Src)))
                = false := by
              rw [Bool.eq_false_iff]
              intro hany
              apply h3
              simpa [List.any_eq_true] using hany
            simp only [h1, h2, h3b, h3, if_true, if_false, or_false, and_false]
            simp
      · simp [h1]

theorem userPolicy_ne_devicePolicy : models.UserPolicy ≠ models.DevicePolicy := by
  decide

/-- C16: `ListUserPoliciesByNetwork` is the list of `ListAcls` filtered to the
rule type `UserPolicy` and `listDevicePolicies` is that list filtered to
`DevicePolicy`, same elements in the same order; no policy is in both, and a
listed policy with one of the two rule types is in exactly one of them. -/
theorem listByRuleType_eq_filter (db : Database) (netID : models.NetworkID) :
    ListUserPoliciesByNetwork db netID =
      (ListAcls db netID).1.filter (fun a => decide (a.RuleType = models.UserPolicy)) ∧
    listDevicePolicies db netID =
      (ListAcls db netID).1.filter (fun a => decide (a.RuleType = models.DevicePolicy)) ∧
    (∀ a, a ∈ ListUserPoliciesByNetwork db netID → a ∉ listDevicePolicies db netID) ∧
    (∀ a ∈ (ListAcls db netID).1,
      (a.RuleType = models.UserPolicy ∨ a.RuleType = models.DevicePolicy) →
      (a ∈ ListUserPoliciesByNetwork db netID ∧ a ∉ listDevicePolicies db netID) ∨
      (a ∈ listDevicePolicies db netID ∧ a ∉ ListUserPoliciesByNetwork db netID)) := by
  have hU : ListUserPoliciesByNetwork db netID =
      (ListAcls db netID).1.filter (fun a => decide (a.RuleType = models.UserPolicy)) := by
    rw [listUserPoliciesByNetwork_eq, listAcls_fst_eq, List.filter_filter]
    congr 1
    funext a
    simp only [Bool.decide_and]
    exact Bool.and_comm _ _
  have hD : listDevicePolicies db netID =
      (ListAcls db netID).1.filter (fun a => decide (a.RuleType = models.DevicePolicy)) := by
    rw [listDevicePolicies_eq, listAcls_fst_eq, List.filter_filter]
    congr 1
    funext a
    simp only [Bool.decide_and]
    exact Bool.and_comm _ _
  refine ⟨hU, hD, ?_, ?_⟩
  · intro a ha hb
    rw [hU] at ha
    rw [hD] at hb
    have h1 := (List.mem_filter.mp ha).2
    have h2 := (List.mem_filter.mp hb).2
    simp only [decide_eq_true_eq] at h1 h2
    exact userPolicy_ne_devicePolicy (h1.symm.trans h2)
  · intro a ha ht
    rw [hU, hD]
    rcases ht with ht | ht
    · left
      refine ⟨List.mem_filter.mpr ⟨ha, by simpa using ht⟩, ?_⟩
      intro hb
      have h2 := (List.mem_filter.mp hb).2
      simp only [decide_eq_true_eq] at h2
      exact userPolicy_ne_devicePolicy (ht.symm.trans h2)
    · right
      refine ⟨List.mem_filter.mpr ⟨ha, by simpa using ht⟩, ?_⟩
      intro hb
      have h2 := (List.mem_filter.mp hb).2
      simp only [decide_eq_true_eq] at h2
      exact userPolicy_ne_devicePolicy (h2.symm.trans ht)

/-- C17, as stated, fails: a scanned user policy whose src holds the wildcard
value "*" is not returned for a user named "bob" in no group. -/
theorem listUserPolicies_wildcard_not_matched :
    (database.FetchRecords Sample.userStore TAG_TABLE_NAME).2 = none ∧
    Sample.wildUsers ∈
      spec_storedPolicies (database.FetchRecords Sample.userStore TAG_TABLE_NAME).1 ∧
    Sample.wildUsers.RuleType = models.UserPolicy ∧
    (∃ s ∈ Sample.wildUsers.Src, s.Value = "*") ∧
    Sample.wildUsers ∉ ListUserPolicies Sample.userStore Sample.bob := by
  decide

/-- C17, amended: when the scan succeeds (or reports an empty collection),
`ListUserPolicies` returns exactly the policies held by the scanned records, of
every network, whose rule type is `UserPolicy` and whose src key set, as built
by `convAclTagToValueMap`, holds the user's name or the identifier of one of
the user's groups; each as many times as it is scanned, in scan order. The
value "*" is a key like any other. -/
theorem listUserPolicies_exact (db : Database) (u : models.User)
    (hscan : (database.FetchRecords db TAG_TABLE_NAME).2 = none ∨
      database.IsEmptyRecord (database.FetchRecords db TAG_TABLE_NAME).2 = true) :
    ListUserPolicies db u =
      (spec_storedPolicies (database.FetchRecords db TAG_TABLE_NAME).1).filter (fun a =>
        decide (a.RuleType = models.UserPolicy ∧
          (u.UserName ∈ convAclTagToValueMap a.Src ∨
            ∃ gID ∈ u.UserGroups,
              models.UserGroupID.String gID ∈ convAclTagToValueMap a.Src))) ∧
    (∀ a, a ∈ ListUserPolicies db u ↔
      (a ∈ spec_storedPolicies (database.FetchRecords db TAG_TABLE_NAME).1 ∧
        a.RuleType = models.UserPolicy ∧
        (u.UserName ∈ convAclTagToValueMap a.Src ∨
          ∃ gID ∈ u.UserGroups,
            models.UserGroupID.String gID ∈ convAclTagToValueMap a.Src))) := by
  have hs : spec_scannedPolicies db
      = spec_storedPolicies (database.FetchRecords db TAG_TABLE_NAME).1 := by
    unfold spec_scannedPolicies
    rw [if_neg (by tauto)]
  have heq := listUserPolicies_eq db u
  rw [hs] at heq
  refine ⟨heq, ?_⟩
  intro a
  rw [heq, List.mem_filter]
  simp

/-- C17 as amended, checked on a store holding user policies of two networks and
a device policy. -/
theorem listUserPolicies_exact_witness :
    (database.FetchRecords Sample.userStore TAG_TABLE_NAME).2 = none ∧
    ListUserPolicies Sample.userStore Sample.kindNamed
      = [Sample.wildUsers, Sample.usersOther] ∧
    (Sample.aToB ∈ ListUserPolicies Sample.userStore Sample.kindNamed ↔
      (Sample.aToB ∈
          spec_storedPolicies (database.FetchRecords Sample.userStore TAG_TABLE_NAME).1 ∧
        Sample.aToB.RuleType = models.UserPolicy ∧
        (Sample.kindNamed.UserName ∈ convAclTagToValueMap Sample.aToB.Src ∨
          ∃ gID ∈ Sample.kindNamed.UserGroups,
            models.UserGroupID.String gID ∈ convAclTagToValueMap Sample.aToB.Src))) :=
  ⟨by decide, by decide,
    (listUserPolicies_exact Sample.userStore Sample.kindNamed (Or.inl (by decide))).2
      Sample.aToB⟩

/-! ### Facts about sorting -/

theorem sort.place_perm {α : Type} (less : α → α → Bool) (a : α) (l : List α) :
    (sort.place less a l).Perm (a :: l) := by
  induction l with
  | nil => exact List.Perm.refl _
  | cons b rest ih =>
    cases hb : less a b
    · simp only [sort.place, hb]
      exact ((List.Perm.cons b ih).trans (List.Perm.swap a b rest))
    · simp only [sort.place, hb, if_true]
      exact List.Perm.refl _

theorem sort.Slice_perm {α : Type} (less : α → α → Bool) (xs : List α) :
    (sort.Slice xs less).Perm xs := by
  induction xs with
  | nil => exact List.Perm.refl _
  | cons a rest ih =>
    show (sort.place less a (sort.Slice rest less)).Perm (a :: rest)
    exact (sort.place_perm less a _).trans (List.Perm.cons a ih)

/-- Placing a policy in a list ordered by name keeps it ordered by name. -/
theorem sort.place_byName_sorted (a : models.Acl) (l : List models.Acl)
    (h : l.Pairwise (fun x y => x.Name ≤ y.Name)) :
    (sort.place (fun x y => decide (x.Name < y.Name)) a l).Pairwise
      (fun x y => x.Name ≤ y.Name) := by
  induction l with
  | nil => simp [sort.place]
  | cons b rest ih =>
    have hb := List.pairwise_cons.mp h
    by_cases hlt : a.Name < b.Name
    · simp only [sort.place, hlt, decide_True, if_true]
      refine List.pairwise_cons.mpr ⟨?_, h⟩
      intro c hc
      rcases List.mem_cons.mp hc with rfl | hc
      · exact le_of_lt hlt
      · exact le_trans (le_of_lt hlt) (hb.1 c hc)
    · simp only [sort.place, hlt, decide_False, Bool.false_eq_true, if_false]
      refine List.pairwise_cons.mpr ⟨?_, ih hb.2⟩
      intro c hc
      have hc2 := (sort.place_perm _ a rest).subset hc
      rcases List.mem_cons.mp hc2 with rfl | hc2
      · exact not_lt.mp hlt
      · exact hb.1 c hc2

/-- C18: the list `SortAclEntrys` leaves is a permutation of the given one (the
same policies, each as many times) and is in ascending order of `Name`: every
policy's name is at most the name of every later one, in particular of the
next one. -/
theorem sortAclEntrys_perm_sorted (acls : List models.Acl) :
    (SortAclEntrys acls).Perm acls ∧
    (∀ a, (SortAclEntrys acls).count a = acls.count a) ∧
    (SortAclEntrys acls).Pairwise (fun x y => x.Name ≤ y.Name) ∧
    (SortAclEntrys acls).Chain' (fun x y => x.Name ≤ y.Name) := by
  have hperm : (SortAclEntrys acls).Perm acls := sort.Slice_perm _ acls
  have hsorted : (SortAclEntrys acls).Pairwise (fun x y => x.Name ≤ y.Name) := by
    unfold SortAclEntrys
    induction acls with
    | nil => simp [sort.Slice]
    | cons a rest ih =>
      show (sort.place _ a (sort.Slice rest _)).Pairwise _
      exact sort.place_byName_sorted a _ (ih (sort.Slice_perm _ rest))
  exact ⟨hperm, fun a => hperm.count_eq a, hsorted, hsorted.chain'⟩

/-! ### Facts about the authorizer -/

/-- The test `IsNodeAllowedToCommunicate` makes on one policy, as a statement
about the two key sets and the two tag sets. -/
theorem tagsMatch_iff (src dst : List String) (nodeTags peerTags : List models.TagID) :
    peerTags.any (fun tagID =>
        (decide (models.TagID.String tagID ∈ dst) &&
          nodeTags.any (fun tagID => decide (models.TagID.String tagID ∈ src)))
        ||
        (decide (models.TagID.String tagID ∈ src) &&
          nodeTags.any (fun tagID => decide (models.TagID.String tagID ∈ dst)))) = true ↔
      ((∃ p ∈ peerTags, p ∈ dst) ∧ (∃ n ∈ nodeTags, n ∈ src)) ∨
      ((∃ p ∈ peerTags, p ∈ src) ∧ (∃ n ∈ nodeTags, n ∈ dst)) := by
  simp only [List.any_eq_true, Bool.or_eq_true, Bool.and_eq_true, decide_eq_true_eq,
    models.TagID.String]
  constructor
  · rintro ⟨p, hp, h | h⟩
    · exact Or.inl ⟨⟨p, hp, h.1⟩, h.2⟩
    · exact Or.inr ⟨⟨p, hp, h.1⟩, h.2⟩
  · rintro (⟨⟨p, hp, h1⟩, h2⟩ | ⟨⟨p, hp, h1⟩, h2⟩)
    · exact ⟨p, hp, Or.inl ⟨h1, h2⟩⟩
    · exact ⟨p, hp, Or.inr ⟨h1, h2⟩⟩

theorem tagsMatch_comm (src dst : List String) (nodeTags peerTags : List models.TagID) :
    peerTags.any (fun tagID =>
        (decide (models.TagID.String tagID ∈ dst) &&
          nodeTags.any (fun tagID => decide (models.TagID.String tagID ∈ src)))
        ||
        (decide (models.TagID.String tagID ∈ src) &&
          nodeTags.any (fun tagID => decide (models.TagID.String tagID ∈ dst))))
      = nodeTags.any (fun tagID =>
        (decide (models.TagID.String tagID ∈ dst) &&
          peerTags.any (fun tagID => decide (models.TagID.String tagID ∈ src)))
        ||
        (decide (models.TagID.String tagID ∈ src) &&
          peerTags.any (fun tagID => decide (models.TagID.String tagID ∈ dst)))) := by
  rw [Bool.eq_iff_iff, tagsMatch_iff, tagsMatch_iff]
  constructor
  · rintro (⟨a, b⟩ | ⟨a, b⟩)
    · exact Or.inr ⟨b, a⟩
    · exact Or.inl ⟨b, a⟩
  · rintro (⟨a, b⟩ | ⟨a, b⟩)
    · exact Or.inr ⟨b, a⟩
    · exact Or.inl ⟨b, a⟩

theorem tagsMatch_congr (src dst : List String)
    (nodeTags peerTags nodeTags2 peerTags2 : List models.TagID)
    (hn : ∀ t, t ∈ nodeTags2 ↔ t ∈ nodeTags) (hp : ∀ t, t ∈ peerTags2 ↔ t ∈ peerTags) :
    peerTags2.any (fun tagID =>
        (decide (models.TagID.String tagID ∈ dst) &&
          nodeTags2.any (fun tagID => decide (models.TagID.String tagID ∈ src)))
        ||
        (decide (models.TagID.String tagID ∈ src) &&
          nodeTags2.any (fun tagID => decide (models.TagID.String tagID ∈ dst))))
      = peerTags.any (fun tagID =>
        (decide (models.TagID.String tagID ∈ dst) &&
          nodeTags.any (fun tagID => decide (models.TagID.String tagID ∈ src)))
        ||
        (decide (models.TagID.String tagID ∈ src) &&
          nodeTags.any (fun tagID => decide (models.TagID.String tagID ∈ dst)))) := by
  rw [Bool.eq_iff_iff, tagsMatch_iff, tagsMatch_iff]
  simp only [hn, hp]

/-- The decision of `IsNodeAllowedToCommunicate`: the default device policy of
the node's network is found and enabled, or some device policy of the peer's
network passes the tag test. -/
theorem isNodeAllowed_eq (db : Database) (node peer : models.Node) :
    IsNodeAllowedToCommunicate db node peer =
      (decide ((GetDefaultPolicy db node.Network models.DevicePolicy).2 = none ∧
          (GetDefaultPolicy db node.Network models.DevicePolicy).1.Enabled = true) ||
        (listDevicePolicies db peer.Network).any (fun policy =>
          peer.Tags.any (fun tagID =>
            (decide (models.TagID.String tagID ∈ convAclTagToValueMap policy.Dst) &&
              node.Tags.any (fun tagID =>
                decide (models.TagID.String tagID ∈ convAclTagToValueMap policy.Src)))
            ||
            (decide (models.TagID.String tagID ∈ convAclTagToValueMap policy.Src) &&
              node.Tags.any (fun tagID =>
                decide (models.TagID.String tagID ∈ convAclTagToValueMap policy.Dst)))))) := by
  unfold IsNodeAllowedToCommunicate
  by_cases hc : (GetDefaultPolicy db node.Network models.DevicePolicy).2 = none ∧
      (GetDefaultPolicy db node.Network models.DevicePolicy).1.Enabled = true
  · simp only [hc, and_self, if_true, decide_True, Bool.true_or]
  · simp only [hc, if_false, decide_False, Bool.false_or]

/-- C19: for a node and a peer of the same network, swapping the two parties
does not change the decision of `IsNodeAllowedToCommunicate`; and the decision
depends on the tags of each party only as a set, so it is the same for every
order in which the tags are enumerated. -/
theorem isNodeAllowed_symm (db : Database) (node peer : models.Node)
    (hnet : node.Network = peer.Network) :
    IsNodeAllowedToCommunicate db node peer = IsNodeAllowedToCommunicate db peer node ∧
    (∀ nodeTags peerTags : List models.TagID,
      nodeTags.Perm node.Tags → peerTags.Perm peer.Tags →
      IsNodeAllowedToCommunicate db
          { Network := node.Network, Tags := nodeTags }
          { Network := peer.Network, Tags := peerTags }
        = IsNodeAllowedToCommunicate db node peer) := by
  constructor
  · rw [isNodeAllowed_eq, isNodeAllowed_eq, hnet]
    congr 2
    funext policy
    exact tagsMatch_comm _ _ _ _
  · intro nodeTags peerTags hn hp
    rw [isNodeAllowed_eq, isNodeAllowed_eq]
    congr 2
    funext policy
    exact tagsMatch_congr _ _ _ _ _ _ (fun t => hn.mem_iff) (fun t => hp.mem_iff)

/-- C19, checked on the store with the disabled default and the policy from
"tagA" to "tagB", for two parties whose tag has the name of the device kind. -/
theorem isNodeAllowed_symm_witness :
    (Sample.skynetNode ["tagA", models.DeviceAclID]).Network
      = (Sample.skynetNode [models.DeviceAclID]).Network ∧
    IsNodeAllowedToCommunicate Sample.closedStore
        (Sample.skynetNode ["tagA", models.DeviceAclID])
        (Sample.skynetNode [models.DeviceAclID]) = true ∧
    IsNodeAllowedToCommunicate Sample.closedStore
        (Sample.skynetNode ["tagA", models.DeviceAclID])
        (Sample.skynetNode [models.DeviceAclID])
      = IsNodeAllowedToCommunicate Sample.closedStore
        (Sample.skynetNode [models.DeviceAclID])
        (Sample.skynetNode ["tagA", models.DeviceAclID]) :=
  ⟨rfl, by decide,
    (isNodeAllowed_symm Sample.closedStore
      (Sample.skynetNode ["tagA", models.DeviceAclID])
      (Sample.skynetNode [models.DeviceAclID]) rfl).1⟩

theorem fetchRecords_eraseDirections (db : Database) :
    database.FetchRecords (spec_eraseDirections db) TAG_TABLE_NAME =
      ((database.FetchRecords db TAG_TABLE_NAME).1.map spec_eraseDirectionIn,
        (database.FetchRecords db TAG_TABLE_NAME).2) := by
  unfold database.FetchRecords
  cases hs : db.scanFault with
  | some msg => simp [spec_eraseDirections, hs]
  | none =>
    by_cases he : db.tags = []
    · simp [spec_eraseDirections, hs, database.table, he]
    · simp [spec_eraseDirections, hs, database.table, he, Function.comp_def]

theorem storedPolicies_eraseDirections (data : List Encoded) :
    spec_storedPolicies (data.map spec_eraseDirectionIn) =
      (spec_storedPolicies data).map spec_eraseDirection := by
  induction data with
  | nil => rfl
  | cons d rest ih =>
    cases d with
    | policy a =>
      simp [spec_storedPolicies, spec_eraseDirectionIn] at ih ⊢
      exact ih
    | malformed raw =>
      simp [spec_storedPolicies, spec_eraseDirectionIn] at ih ⊢
      exact ih

theorem scannedPolicies_eraseDirections (db : Database) :
    spec_scannedPolicies (spec_eraseDirections db) =
      (spec_scannedPolicies db).map spec_eraseDirection := by
  unfold spec_scannedPolicies
  rw [fetchRecords_eraseDirections]
  by_cases hc : (database.FetchRecords db TAG_TABLE_NAME).2 ≠ none ∧
      ¬ database.IsEmptyRecord (database.FetchRecords db TAG_TABLE_NAME).2 = true
  · rw [if_pos hc, if_pos hc]
    rfl
  · rw [if_neg hc, if_neg hc]
    exact storedPolicies_eraseDirections _

theorem listDevicePolicies_eraseDirections (db : Database) (netID : models.NetworkID) :
    listDevicePolicies (spec_eraseDirections db) netID =
      (listDevicePolicies db netID).map spec_eraseDirection := by
  rw [listDevicePolicies_eq, listDevicePolicies_eq, scannedPolicies_eraseDirections,
    List.filter_map]
  rfl

theorem listAcls_eraseDirections (db : Database) (netID : models.NetworkID) :
    (ListAcls (spec_eraseDirections db) netID).1 =
      (ListAcls db netID).1.map spec_eraseDirection := by
  rw [listAcls_fst_eq, listAcls_fst_eq, scannedPolicies_eraseDirections, List.filter_map]
  rfl

theorem getDefaultPolicy_eraseDirections (db : Database) (netID : models.NetworkID)
    (ruleType : models.AclPolicyType) :
    (GetDefaultPolicy (spec_eraseDirections db) netID ruleType).2 =
      (GetDefaultPolicy db netID ruleType).2 ∧
    (GetDefaultPolicy (spec_eraseDirections db) netID ruleType).1.Enabled =
      (GetDefaultPolicy db netID ruleType).1.Enabled := by
  rw [getDefaultPolicy_eq, getDefaultPolicy_eq, listAcls_eraseDirections, List.find?_map]
  have hcomp : ((fun acl : models.Acl => acl.Default && decide (acl.RuleType = ruleType))
      ∘ spec_eraseDirection)
      = (fun acl : models.Acl => acl.Default && decide (acl.RuleType = ruleType)) := rfl
  rw [hcomp]
  cases (ListAcls db netID).1.find?
      (fun acl => acl.Default && decide (acl.RuleType = ruleType)) with
  | none => exact ⟨rfl, rfl⟩
  | some acl => exact ⟨rfl, rfl⟩

theorem isNodeAllowed_eraseDirections (db : Database) (node peer : models.Node) :
    IsNodeAllowedToCommunicate (spec_eraseDirections db) node peer =
      IsNodeAllowedToCommunicate db node peer := by
  rw [isNodeAllowed_eq, isNodeAllowed_eq, listDevicePolicies_eraseDirections,
    (getDefaultPolicy_eraseDirections db node.Network models.DevicePolicy).1,
    (getDefaultPolicy_eraseDirections db node.Network models.DevicePolicy).2,
    List.any_map]
  rfl

/-- C20: two store states that are equal once the `AllowedDirection` of every
policy they hold is blanked give the same decision of
`IsNodeAllowedToCommunicate` for every node and peer. -/
theorem isNodeAllowed_direction_irrelevant (db db2 : Database) (node peer : models.Node)
    (h : spec_eraseDirections db = spec_eraseDirections db2) :
    IsNodeAllowedToCommunicate db node peer = IsNodeAllowedToCommunicate db2 node peer := by
  rw [← isNodeAllowed_eraseDirections db, ← isNodeAllowed_eraseDirections db2, h]

/-- C20, checked on two stores that differ in the direction of both policies.
-/
theorem isNodeAllowed_direction_irrelevant_witness :
    Sample.closedStore ≠ Sample.closedStoreFlipped ∧
    spec_eraseDirections Sample.closedStore
      = spec_eraseDirections Sample.closedStoreFlipped ∧
    IsNodeAllowedToCommunicate Sample.closedStore
        (Sample.skynetNode [models.DeviceAclID]) (Sample.skynetNode [models.DeviceAclID])
      = IsNodeAllowedToCommunicate Sample.closedStoreFlipped
        (Sample.skynetNode [models.DeviceAclID]) (Sample.skynetNode [models.DeviceAclID]) :=
  ⟨by decide, by decide,
    isNodeAllowed_direction_irrelevant Sample.closedStore Sample.closedStoreFlipped
      (Sample.skynetNode [models.DeviceAclID]) (Sample.skynetNode [models.DeviceAclID])
      (by decide)⟩

/-! ### Facts about the policies the authorizer consults -/

/-- When the default device policy of the node's network is absent or disabled,
the decision is that some device policy of the peer's network matches. -/
theorem isNodeAllowed_closed_iff (db : Database) (node peer : models.Node)
    (hdef : (GetDefaultPolicy db node.Network models.DevicePolicy).2 ≠ none ∨
      (GetDefaultPolicy db node.Network models.DevicePolicy).1.Enabled = false) :
    IsNodeAllowedToCommunicate db node peer = true ↔
      ∃ policy ∈ listDevicePolicies db peer.Network,
        spec_policyMatches policy node peer := by
  have hc : ¬ ((GetDefaultPolicy db node.Network models.DevicePolicy).2 = none ∧
      (GetDefaultPolicy db node.Network models.DevicePolicy).1.Enabled = true) := by
    rintro ⟨h1, h2⟩
    rcases hdef with h | h
    · exact h h1
    · rw [h2] at h
      exact Bool.noConfusion h
  rw [isNodeAllowed_eq]
  simp only [hc, decide_False, Bool.false_or]
  rw [List.any_eq_true]
  constructor
  · rintro ⟨policy, hmem, ht⟩
    exact ⟨policy, hmem, (tagsMatch_iff _ _ _ _).mp ht⟩
  · rintro ⟨policy, hmem, ht⟩
    exact ⟨policy, hmem, (tagsMatch_iff _ _ _ _).mpr ht⟩

theorem mem_listDevicePolicies (db : Database) (netID : models.NetworkID)
    (a : models.Acl) :
    a ∈ listDevicePolicies db netID ↔
      a ∈ spec_scannedPolicies db ∧ a.NetworkID = netID ∧
        a.RuleType = models.DevicePolicy := by
  rw [listDevicePolicies_eq, List.mem_filter]
  simp

/-- C21: when the default device policy of the node's network is absent or
disabled, the device policies consulted are those of the peer's network: a
matching device policy of the peer's network authorizes; when no device policy
of the peer's network matches the result is false, whatever policies the node's
network or any other network holds; and two store states with the same device
policies of the peer's network, in both of which the default is absent or
disabled, give the same result. -/
theorem isNodeAllowed_scoped_to_peer_network (db : Database) (node peer : models.Node)
    (hdef : (GetDefaultPolicy db node.Network models.DevicePolicy).2 ≠ none ∨
      (GetDefaultPolicy db node.Network models.DevicePolicy).1.Enabled = false) :
    (∀ policy ∈ spec_scannedPolicies db,
      policy.RuleType = models.DevicePolicy → policy.NetworkID = peer.Network →
      spec_policyMatches policy node peer →
      IsNodeAllowedToCommunicate db node peer = true) ∧
    ((∀ policy ∈ spec_scannedPolicies db,
      policy.RuleType = models.DevicePolicy → policy.NetworkID = peer.Network →
      ¬ spec_policyMatches policy node peer) →
      IsNodeAllowedToCommunicate db node peer = false) ∧
    (∀ db2 : Database,
      ((GetDefaultPolicy db2 node.Network models.DevicePolicy).2 ≠ none ∨
        (GetDefaultPolicy db2 node.Network models.DevicePolicy).1.Enabled = false) →
      listDevicePolicies db2 peer.Network = listDevicePolicies db peer.Network →
      IsNodeAllowedToCommunicate db2 node peer = IsNodeAllowedToCommunicate db node peer) := by
  refine ⟨?_, ?_, ?_⟩
  · intro policy hmem ht hn hm
    exact (isNodeAllowed_closed_iff db node peer hdef).mpr
      ⟨policy, (mem_listDevicePolicies db _ policy).mpr ⟨hmem, hn, ht⟩, hm⟩
  · intro hno
    rw [Bool.eq_false_iff]
    intro htrue
    obtain ⟨policy, hmem, hm⟩ := (isNodeAllowed_closed_iff db node peer hdef).mp htrue
    obtain ⟨h1, h2, h3⟩ := (mem_listDevicePolicies db _ policy).mp hmem
    exact hno policy h1 h3 h2 hm
  · intro db2 hdef2 hsame
    rw [Bool.eq_iff_iff, isNodeAllowed_closed_iff db node peer hdef,
      isNodeAllowed_closed_iff db2 node peer hdef2, hsame]

/-- C21, checked on a store whose only device policy belongs to "skynet": a node
of "skynet" is refused towards a peer of "othernet" although the policy matches,
and the same two parties in the other roles are allowed. -/
theorem isNodeAllowed_scoped_to_peer_network_witness :
    (GetDefaultPolicy Sample.plainStore "skynet" models.DevicePolicy).2 ≠ none ∧
    Sample.aToB.NetworkID = "skynet" ∧
    spec_policyMatches Sample.aToB
      (Sample.skynetNode [models.DeviceAclID]) (Sample.othernetNode [models.DeviceAclID]) ∧
    IsNodeAllowedToCommunicate Sample.plainStore
      (Sample.skynetNode [models.DeviceAclID]) (Sample.othernetNode [models.DeviceAclID])
      = false ∧
    IsNodeAllowedToCommunicate Sample.plainStore
      (Sample.othernetNode [models.DeviceAclID]) (Sample.skynetNode [models.DeviceAclID])
      = true :=
  ⟨by decide, by decide, by decide,
    (isNodeAllowed_scoped_to_peer_network Sample.plainStore
      (Sample.skynetNode [models.DeviceAclID]) (Sample.othernetNode [models.DeviceAclID])
      (Or.inl (by decide))).2.1 (by decide),
    (isNodeAllowed_scoped_to_peer_network Sample.plainStore
      (Sample.othernetNode [models.DeviceAclID]) (Sample.skynetNode [models.DeviceAclID])
      (Or.inl (by decide))).1 Sample.aToB (by decide) (by decide) (by decide) (by decide)⟩

theorem fetchRecords_eraseEnabledFlags (db : Database) :
    database.FetchRecords (spec_eraseEnabledFlags db) TAG_TABLE_NAME =
      ((database.FetchRecords db TAG_TABLE_NAME).1.map spec_eraseEnabledIn,
        (database.FetchRecords db TAG_TABLE_NAME).2) := by
  unfold database.FetchRecords
  cases hs : db.scanFault with
  | some msg => simp [spec_eraseEnabledFlags, hs]
  | none =>
    by_cases he : db.tags = []
    · simp [spec_eraseEnabledFlags, hs, database.table, he]
    · simp [spec_eraseEnabledFlags, hs, database.table, he, Function.comp_def]

theorem storedPolicies_eraseEnabledFlags (data : List Encoded) :
    spec_storedPolicies (data.map spec_eraseEnabledIn) =
      (spec_storedPolicies data).map spec_eraseEnabled := by
  induction data with
  | nil => rfl
  | cons d rest ih =>
    cases d with
    | policy a =>
      simp [spec_storedPolicies, spec_eraseEnabledIn] at ih ⊢
      exact ih
    | malformed raw =>
      simp [spec_storedPolicies, spec_eraseEnabledIn] at ih ⊢
      exact ih

theorem scannedPolicies_eraseEnabledFlags (db : Database) :
    spec_scannedPolicies (spec_eraseEnabledFlags db) =
      (spec_scannedPolicies db).map spec_eraseEnabled := by
  unfold spec_scannedPolicies
  rw [fetchRecords_eraseEnabledFlags]
  by_cases hc : (database.FetchRecords db TAG_TABLE_NAME).2 ≠ none ∧
      ¬ database.IsEmptyRecord (database.FetchRecords db TAG_TABLE_NAME).2 = true
  · rw [if_pos hc, if_pos hc]
    rfl
  · rw [if_neg hc, if_neg hc]
    exact storedPolicies_eraseEnabledFlags _

/-- Blanking `Enabled` changes no other field. -/
theorem eraseEnabled_fields (a : models.Acl) :
    (spec_eraseEnabled a).Default = a.Default ∧
    (spec_eraseEnabled a).RuleType = a.RuleType ∧
    (spec_eraseEnabled a).NetworkID = a.NetworkID ∧
    (spec_eraseEnabled a).Src = a.Src ∧ (spec_eraseEnabled a).Dst = a.Dst := by
  unfold spec_eraseEnabled
  by_cases h : a.Default = false ∧ a.RuleType = models.DevicePolicy
  · rw [if_pos h]
    exact ⟨rfl, rfl, rfl, rfl, rfl⟩
  · rw [if_neg h]
    exact ⟨rfl, rfl, rfl, rfl, rfl⟩

theorem eraseEnabled_of_default (a : models.Acl) (h : a.Default = true) :
    spec_eraseEnabled a = a := by
  unfold spec_eraseEnabled
  rw [if_neg]
  rintro ⟨h1, _⟩
  rw [h] at h1
  exact Bool.noConfusion h1

theorem listDevicePolicies_eraseEnabledFlags (db : Database) (netID : models.NetworkID) :
    listDevicePolicies (spec_eraseEnabledFlags db) netID =
      (listDevicePolicies db netID).map spec_eraseEnabled := by
  rw [listDevicePolicies_eq, listDevicePolicies_eq, scannedPolicies_eraseEnabledFlags,
    List.filter_map]
  congr 2
  funext a
  simp only [Function.comp, (eraseEnabled_fields a).2.1, (eraseEnabled_fields a).2.2.1]

theorem listAcls_eraseEnabledFlags (db : Database) (netID : models.NetworkID) :
    (ListAcls (spec_eraseEnabledFlags db) netID).1 =
      (ListAcls db netID).1.map spec_eraseEnabled := by
  rw [listAcls_fst_eq, listAcls_fst_eq, scannedPolicies_eraseEnabledFlags, List.filter_map]
  congr 2
  funext a
  simp only [Function.comp, (eraseEnabled_fields a).2.2.1]

theorem getDefaultPolicy_eraseEnabledFlags (db : Database) (netID : models.NetworkID)
    (ruleType : models.AclPolicyType) :
    GetDefaultPolicy (spec_eraseEnabledFlags db) netID ruleType =
      GetDefaultPolicy db netID ruleType := by
  rw [getDefaultPolicy_eq, getDefaultPolicy_eq, listAcls_eraseEnabledFlags, List.find?_map]
  have hcomp : ((fun acl : models.Acl => acl.Default && decide (acl.RuleType = ruleType))
      ∘ spec_eraseEnabled)
      = (fun acl : models.Acl => acl.Default && decide (acl.RuleType = ruleType)) := by
    funext a
    simp only [Function.comp, (eraseEnabled_fields a).1, (eraseEnabled_fields a).2.1]
  rw [hcomp]
  cases hf : (ListAcls db netID).1.find?
      (fun acl => acl.Default && decide (acl.RuleType = ruleType)) with
  | none => rfl
  | some acl =>
    have hp := List.find?_some hf
    simp only [Bool.and_eq_true, decide_eq_true_eq] at hp
    simp only [Option.map_some', eraseEnabled_of_default acl hp.1]

theorem isNodeAllowed_eraseEnabledFlags (db : Database) (node peer : models.Node) :
    IsNodeAllowedToCommunicate (spec_eraseEnabledFlags db) node peer =
      IsNodeAllowedToCommunicate db node peer := by
  rw [isNodeAllowed_eq, isNodeAllowed_eq, listDevicePolicies_eraseEnabledFlags,
    getDefaultPolicy_eraseEnabledFlags, List.any_map]
  congr 2
  funext a
  simp only [Function.comp, (eraseEnabled_fields a).2.2.2.1, (eraseEnabled_fields a).2.2.2.2]

/-- C22: two store states that are equal once the `Enabled` field of every
non-default device policy is blanked give the same decision of
`IsNodeAllowedToCommunicate` for every node and peer (whether or not the
default device policy is absent or disabled): flipping `Enabled` on non-default
device policies never changes the decision. -/
theorem isNodeAllowed_enabled_irrelevant (db db2 : Database) (node peer : models.Node)
    (h : spec_eraseEnabledFlags db = spec_eraseEnabledFlags db2) :
    IsNodeAllowedToCommunicate db node peer = IsNodeAllowedToCommunicate db2 node peer := by
  rw [← isNodeAllowed_eraseEnabledFlags db, ← isNodeAllowed_eraseEnabledFlags db2, h]

/-- C22, checked on two stores that differ in the `Enabled` field of the one
non-default device policy, which authorizes in both. -/
theorem isNodeAllowed_enabled_irrelevant_witness :
    Sample.closedStore ≠ Sample.closedStoreDisabled ∧
    spec_eraseEnabledFlags Sample.closedStore
      = spec_eraseEnabledFlags Sample.closedStoreDisabled ∧
    IsNodeAllowedToCommunicate Sample.closedStoreDisabled
        (Sample.skynetNode [models.DeviceAclID]) (Sample.skynetNode [models.DeviceAclID])
      = true ∧
    IsNodeAllowedToCommunicate Sample.closedStore
        (Sample.skynetNode [models.DeviceAclID]) (Sample.skynetNode [models.DeviceAclID])
      = IsNodeAllowedToCommunicate Sample.closedStoreDisabled
        (Sample.skynetNode [models.DeviceAclID]) (Sample.skynetNode [models.DeviceAclID]) :=
  ⟨by decide, by decide, by decide,
    isNodeAllowed_enabled_irrelevant Sample.closedStore Sample.closedStoreDisabled
      (Sample.skynetNode [models.DeviceAclID]) (Sample.skynetNode [models.DeviceAclID])
      (by decide)⟩

/-- C24, as stated, fails: with the default device policy of "skynet" disabled
and a non-default device policy of "skynet" with src and dst the wildcard
device tag, a node carrying "tagA" and a peer carrying "tagB", both of
"skynet", are refused. -/
theorem isNodeAllowed_wildcard_refused :
    (GetDefaultPolicy Sample.wildStore "skynet" models.DevicePolicy).1.Enabled = false ∧
    Sample.wildDevices ∈ listDevicePolicies Sample.wildStore "skynet" ∧
    Sample.wildDevices.Default = false ∧
    Sample.wildDevices.Src = [{ ID := models.DeviceAclID, Value := "*" }] ∧
    Sample.wildDevices.Dst = [{ ID := models.DeviceAclID, Value := "*" }] ∧
    IsNodeAllowedToCommunicate Sample.wildStore
      (Sample.skynetNode ["tagA"]) (Sample.skynetNode ["tagB"]) = false := by
  decide

/-- C24, amended: when the default device policy of a network is absent or
disabled, a node and a peer of that network are allowed exactly when some
device policy of the network matches them through the key sets
`convAclTagToValueMap` builds from its `Src` and `Dst`; the value "*" is given
no special treatment, and a party that carries no tag is never allowed. -/
theorem isNodeAllowed_closed_exact (db : Database) (netID : models.NetworkID)
    (node peer : models.Node)
    (hnode : node.Network = netID) (hpeer : peer.Network = netID)
    (hdef : (GetDefaultPolicy db netID models.DevicePolicy).2 ≠ none ∨
      (GetDefaultPolicy db netID models.DevicePolicy).1.Enabled = false) :
    (IsNodeAllowedToCommunicate db node peer = true ↔
      ∃ policy ∈ spec_scannedPolicies db,
        policy.NetworkID = netID ∧ policy.RuleType = models.DevicePolicy ∧
        spec_policyMatches policy node peer) ∧
    (node.Tags = [] ∨ peer.Tags = [] → IsNodeAllowedToCommunicate db node peer = false) := by
  subst hnode
  have hiff := isNodeAllowed_closed_iff db node peer hdef
  rw [hpeer] at hiff
  have hexact : IsNodeAllowedToCommunicate db node peer = true ↔
      ∃ policy ∈ spec_scannedPolicies db,
        policy.NetworkID = node.Network ∧ policy.RuleType = models.DevicePolicy ∧
        spec_policyMatches policy node peer := by
    rw [hiff]
    constructor
    · rintro ⟨policy, hmem, hm⟩
      obtain ⟨h1, h2, h3⟩ := (mem_listDevicePolicies db _ policy).mp hmem
      exact ⟨policy, h1, h2, h3, hm⟩
    · rintro ⟨policy, h1, h2, h3, hm⟩
      exact ⟨policy, (mem_listDevicePolicies db _ policy).mpr ⟨h1, h2, h3⟩, hm⟩
  refine ⟨hexact, ?_⟩
  intro hempty
  rw [Bool.eq_false_iff]
  intro htrue
  obtain ⟨policy, _, _, _, hm⟩ := hexact.mp htrue
  unfold spec_policyMatches at hm
  rcases hempty with he | he
  · rw [he] at hm
    simp at hm
  · rw [he] at hm
    simp at hm

/-- C24 as amended, checked on the store with the wildcard device policy: two
parties whose tag is in the key sets are allowed, and a node without tags is
refused. -/
theorem isNodeAllowed_closed_exact_witness :
    (GetDefaultPolicy Sample.wildStore "skynet" models.DevicePolicy).1.Enabled = false ∧
    IsNodeAllowedToCommunicate Sample.wildStore
      (Sample.skynetNode [models.DeviceAclID]) (Sample.skynetNode [models.DeviceAclID])
      = true ∧
    IsNodeAllowedToCommunicate Sample.wildStore
      (Sample.skynetNode []) (Sample.skynetNode [models.DeviceAclID]) = false :=
  ⟨by decide,
    (isNodeAllowed_closed_exact Sample.wildStore "skynet"
      (Sample.skynetNode [models.DeviceAclID]) (Sample.skynetNode [models.DeviceAclID])
      rfl rfl (Or.inr (by decide))).1.mpr
      ⟨Sample.wildDevices, by decide, by decide, by decide, by decide⟩,
    (isNodeAllowed_closed_exact Sample.wildStore "skynet"
      (Sample.skynetNode []) (Sample.skynetNode [models.DeviceAclID])
      rfl rfl (Or.inr (by decide))).2 (Or.inl rfl)⟩

/-! ### Facts about what the reading operations depend on -/

theorem fetchRecords_tag_congr (db db2 : Database)
    (ht : db2.tags = db.tags) (hs : db2.scanFault = db.scanFault) :
    database.FetchRecords db2 TAG_TABLE_NAME = database.FetchRecords db TAG_TABLE_NAME := by
  unfold database.FetchRecords database.table
  simp only [ht, hs]

/-- The reading operations depend on the scanned collection and the scan fault
only. -/
theorem sameReads_of_tags (db db2 : Database)
    (ht : db2.tags = db.tags) (hs : db2.scanFault = db.scanFault) :
    spec_sameReads db db2 := by
  have hf := fetchRecords_tag_congr db db2 ht hs
  have hL : ∀ netID, ListAcls db2 netID = ListAcls db netID := by
    intro netID
    unfold ListAcls
    rw [hf]
  have hD : ∀ netID, listDevicePolicies db2 netID = listDevicePolicies db netID := by
    intro netID
    unfold listDevicePolicies
    rw [hf]
  have hG : ∀ netID ruleType,
      GetDefaultPolicy db2 netID ruleType = GetDefaultPolicy db netID ruleType := by
    intro netID ruleType
    rw [getDefaultPolicy_eq, getDefaultPolicy_eq, hL]
  refine ⟨hL, ?_, hD, ?_, hG, ?_⟩
  · intro netID
    unfold ListUserPoliciesByNetwork
    rw [hf]
  · intro u
    unfold ListUserPolicies
    rw [hf]
  · intro node peer
    rw [isNodeAllowed_eq, isNodeAllowed_eq, hG, hD]

theorem insertAcl_frame (db : Database) (a : models.Acl) :
    (InsertAcl db a).1.tags = db.tags ∧ (InsertAcl db a).1.scanFault = db.scanFault := by
  unfold InsertAcl json.Marshal database.Insert
  cases db.writeFault with
  | none => exact ⟨rfl, rfl⟩
  | some msg => exact ⟨rfl, rfl⟩

theorem updateAcl_frame (db : Database) (newAcl acl : models.Acl) :
    (UpdateAcl db newAcl acl).1.tags = db.tags ∧
    (UpdateAcl db newAcl acl).1.scanFault = db.scanFault := by
  unfold UpdateAcl json.Marshal database.Insert
  cases db.writeFault with
  | none => exact ⟨rfl, rfl⟩
  | some msg => exact ⟨rfl, rfl⟩

theorem deleteAcl_frame (db : Database) (a : models.Acl) :
    (DeleteAcl db a).1.tags = db.tags ∧ (DeleteAcl db a).1.scanFault = db.scanFault := by
  unfold DeleteAcl database.DeleteRecord
  cases Table.get (database.table db ACLS_TABLE_NAME) a.ID.String with
  | none => exact ⟨rfl, rfl⟩
  | some v => exact ⟨rfl, rfl⟩

theorem getAcl_insertAcl (db : Database) (p : models.Acl)
    (h : (InsertAcl db p).2 = none) :
    GetAcl (InsertAcl db p).1 p.ID.String = (p, none) := by
  unfold InsertAcl json.Marshal database.Insert at *
  cases hw : db.writeFault with
  | some msg => simp [hw] at h
  | none =>
    simp [GetAcl, database.FetchRecord, database.table_setTable, Table.get_put_self,
      json.Unmarshal]

theorem getAcl_deleteAcl (db : Database) (p : models.Acl)
    (h : (DeleteAcl db p).2 = none) :
    (GetAcl (DeleteAcl db p).1 p.ID.String).2 = some Error.noRecord := by
  unfold DeleteAcl database.DeleteRecord at *
  cases hg : Table.get (database.table db ACLS_TABLE_NAME) p.ID.String with
  | none => simp [hg] at h
  | some v =>
    simp [GetAcl, database.FetchRecord, database.table_setTable, Table.get_erase_self]

/-- C25: `InsertAcl`, `UpdateAcl` and `DeleteAcl` leave the scanned collection
(`TAG_TABLE_NAME`) as it was, and the six reading operations give the same
results after any of them as before, for all their arguments; `GetAcl` does see
the write: after a successful `InsertAcl` or `UpdateAcl` it returns the written
record, and after a successful `DeleteAcl` it fails with the not-found error.
-/
theorem writes_invisible_to_listings (db : Database) (p newAcl : models.Acl) :
    ((InsertAcl db p).1.tags = db.tags ∧ spec_sameReads db (InsertAcl db p).1) ∧
    ((UpdateAcl db newAcl p).1.tags = db.tags ∧
      spec_sameReads db (UpdateAcl db newAcl p).1) ∧
    ((DeleteAcl db p).1.tags = db.tags ∧ spec_sameReads db (DeleteAcl db p).1) ∧
    ((InsertAcl db p).2 = none → GetAcl (InsertAcl db p).1 p.ID.String = (p, none)) ∧
    ((UpdateAcl db newAcl p).2 = none →
      (GetAcl (UpdateAcl db newAcl p).1 p.ID.String).2 = none ∧
      (GetAcl (UpdateAcl db newAcl p).1 p.ID.String).1.Src = newAcl.Src) ∧
    ((DeleteAcl db p).2 = none →
      (GetAcl (DeleteAcl db p).1 p.ID.String).2 = some Error.noRecord) := by
  refine ⟨⟨(insertAcl_frame db p).1, ?_⟩, ⟨(updateAcl_frame db newAcl p).1, ?_⟩,
    ⟨(deleteAcl_frame db p).1, ?_⟩, getAcl_insertAcl db p, ?_, getAcl_deleteAcl db p⟩
  · exact sameReads_of_tags _ _ (insertAcl_frame db p).1 (insertAcl_frame db p).2
  · exact sameReads_of_tags _ _ (updateAcl_frame db newAcl p).1 (updateAcl_frame db newAcl p).2
  · exact sameReads_of_tags _ _ (deleteAcl_frame db p).1 (deleteAcl_frame db p).2
  · intro h
    rw [getAcl_updateAcl db newAcl p (updateAcl_ok db newAcl p h)]
    exact ⟨rfl, rfl⟩

/-- C25, checked by inserting the enabled default device policy of "skynet" into
a store where that default is disabled in the scanned collection: the insert
succeeds and `GetAcl` returns the policy, while `GetDefaultPolicy` still returns
the disabled one and the decision is still a refusal. -/
theorem writes_invisible_to_listings_witness :
    (InsertAcl Sample.closedStore (Sample.allNodes true)).2 = none ∧
    GetAcl (InsertAcl Sample.closedStore (Sample.allNodes true)).1
      (Sample.allNodes true).ID.String = (Sample.allNodes true, none) ∧
    GetDefaultPolicy (InsertAcl Sample.closedStore (Sample.allNodes true)).1
      "skynet" models.DevicePolicy = (Sample.allNodes false, none) ∧
    IsNodeAllowedToCommunicate (InsertAcl Sample.closedStore (Sample.allNodes true)).1
      (Sample.skynetNode ["tagA"]) (Sample.skynetNode ["tagB"]) = false :=
  ⟨by decide,
    (writes_invisible_to_listings Sample.closedStore (Sample.allNodes true)
      Sample.blankUpdate).2.2.2.1 (by decide),
    ((writes_invisible_to_listings Sample.closedStore (Sample.allNodes true)
      Sample.blankUpdate).1.2.2.2.2.2.1 "skynet" models.DevicePolicy).trans (by decide),
    ((writes_invisible_to_listings Sample.closedStore (Sample.allNodes true)
      Sample.blankUpdate).1.2.2.2.2.2.2
        (Sample.skynetNode ["tagA"]) (Sample.skynetNode ["tagB"])).trans (by decide)⟩

/-! ### Facts about undecodable records and failing scans -/

theorem scannedPolicies_of_fault (db : Database) :
    spec_scannedPolicies db =
      if db.scanFault = none then spec_storedPolicies (db.tags.map Prod.snd) else [] := by
  unfold spec_scannedPolicies database.FetchRecords database.table
  cases hs : db.scanFault with
  | some msg => simp [database.IsEmptyRecord]
  | none =>
    by_cases he : db.tags = []
    · simp [he, database.IsEmptyRecord, spec_storedPolicies]
    · simp [he, database.IsEmptyRecord]

theorem listAcls_snd_of_fault (db : Database) (netID : models.NetworkID) :
    (ListAcls db netID).2 = db.scanFault.map Error.storage := by
  unfold ListAcls database.FetchRecords database.table
  cases hs : db.scanFault with
  | some msg => simp [database.IsEmptyRecord]
  | none =>
    by_cases he : db.tags = []
    · simp [he, database.IsEmptyRecord]
    · simp [he, database.IsEmptyRecord]

theorem storedPolicies_filter_decodable (tbl : Table) :
    spec_storedPolicies ((tbl.filter (fun kv => spec_decodable kv.2)).map Prod.snd) =
      spec_storedPolicies (tbl.map Prod.snd) := by
  induction tbl with
  | nil => rfl
  | cons kv rest ih =>
    obtain ⟨k, v⟩ := kv
    cases v with
    | policy a =>
      simp [spec_storedPolicies, spec_decodable, List.filter_cons] at ih ⊢
      exact ih
    | malformed raw =>
      simp [spec_storedPolicies, spec_decodable, List.filter_cons] at ih ⊢
      exact ih

theorem scannedPolicies_dropUndecodable (db : Database) :
    spec_scannedPolicies (spec_dropUndecodable db) = spec_scannedPolicies db := by
  rw [scannedPolicies_of_fault, scannedPolicies_of_fault]
  show (if db.scanFault = none then
      spec_storedPolicies ((db.tags.filter (fun kv => spec_decodable kv.2)).map Prod.snd)
    else []) = _
  rw [storedPolicies_filter_decodable]

/-- C27: `ListAcls`, `ListUserPoliciesByNetwork`, `listDevicePolicies` and
`ListUserPolicies` return on a store the same result as on the store with every
undecodable record removed, and `ListAcls` returns no error when the scan does
not fail; `GetAcl` of a key whose record does not decode returns an error; and
when the scan fails with an error other than the empty-collection one,
`ListUserPoliciesByNetwork`, `listDevicePolicies` and `ListUserPolicies` return
the empty sequence while `ListAcls` returns that error. -/
theorem listings_skip_undecodable (db : Database) (netID : models.NetworkID)
    (u : models.User) :
    (ListAcls (spec_dropUndecodable db) netID = ListAcls db netID ∧
      ListUserPoliciesByNetwork (spec_dropUndecodable db) netID
        = ListUserPoliciesByNetwork db netID ∧
      listDevicePolicies (spec_dropUndecodable db) netID = listDevicePolicies db netID ∧
      ListUserPolicies (spec_dropUndecodable db) u = ListUserPolicies db u) ∧
    (db.scanFault = none → (ListAcls db netID).2 = none) ∧
    (∀ key raw, Table.get db.acls key = some (Encoded.malformed raw) →
      (GetAcl db key).2 = some (Error.json raw)) ∧
    (∀ e, (database.FetchRecords db TAG_TABLE_NAME).2 = some e →
      database.IsEmptyRecord (some e) = false →
      ListUserPoliciesByNetwork db netID = [] ∧ listDevicePolicies db netID = [] ∧
      ListUserPolicies db u = [] ∧ ListAcls db netID = ([], some e)) := by
  have hsc := scannedPolicies_dropUndecodable db
  refine ⟨⟨?_, ?_, ?_, ?_⟩, ?_, ?_, ?_⟩
  · apply Prod.ext
    · rw [listAcls_fst_eq, listAcls_fst_eq, hsc]
    · rw [listAcls_snd_of_fault, listAcls_snd_of_fault]
      rfl
  · rw [listUserPoliciesByNetwork_eq, listUserPoliciesByNetwork_eq, hsc]
  · rw [listDevicePolicies_eq, listDevicePolicies_eq, hsc]
  · rw [listUserPolicies_eq, listUserPolicies_eq, hsc]
  · intro hs
    rw [listAcls_snd_of_fault, hs]
    rfl
  · intro key raw hget
    simp [GetAcl, database.FetchRecord, database.table, hget, json.Unmarshal]
  · intro e he hne
    have hc : (database.FetchRecords db TAG_TABLE_NAME).2 ≠ none ∧
        ¬ database.IsEmptyRecord (database.FetchRecords db TAG_TABLE_NAME).2 = true := by
      rw [he]
      exact ⟨by simp, by simp [hne]⟩
    have hnil : spec_scannedPolicies db = [] := by
      unfold spec_scannedPolicies
      rw [if_pos hc]
    refine ⟨?_, ?_, ?_, ?_⟩
    · rw [listUserPoliciesByNetwork_eq, hnil]
      rfl
    · rw [listDevicePolicies_eq, hnil]
      rfl
    · rw [listUserPolicies_eq, hnil]
      rfl
    · apply Prod.ext
      · rw [listAcls_fst_eq, hnil]
        rfl
      · rw [← he]
        show (ListAcls db netID).2 = _
        unfold ListAcls
        show (if (database.FetchRecords db TAG_TABLE_NAME).2 ≠ none ∧
            ¬ database.IsEmptyRecord (database.FetchRecords db TAG_TABLE_NAME).2 = true
          then (([] : List models.Acl), (database.FetchRecords db TAG_TABLE_NAME).2)
          else _).2 = _
        rw [if_pos hc]

/-- C27, checked on a scanned collection with an undecodable record, on a policy
collection with an undecodable record, and on a store whose scans fail. -/
theorem listings_skip_undecodable_witness :
    spec_dropUndecodable Sample.mixedStore = Sample.mixedStoreClean ∧
    ListAcls Sample.mixedStore "skynet" = ([Sample.aToB], none) ∧
    (GetAcl Sample.garbledStore "6ba7b816-9dad-11d1-80b4-00c04fd430c8").2
      = some (Error.json "not json") ∧
    listDevicePolicies Sample.brokenStore "skynet" = [] ∧
    ListAcls Sample.brokenStore "skynet" = ([], some (Error.storage "disk failure")) :=
  ⟨by decide,
    ((listings_skip_undecodable Sample.mixedStore "skynet" Sample.bob).1.1).symm.trans
      (by decide),
    (listings_skip_undecodable Sample.garbledStore "skynet" Sample.bob).2.2.1
      "6ba7b816-9dad-11d1-80b4-00c04fd430c8" "not json" (by decide),
    ((listings_skip_undecodable Sample.brokenStore "skynet" Sample.bob).2.2.2
      (Error.storage "disk failure") (by decide) (by decide)).2.1,
    ((listings_skip_undecodable Sample.brokenStore "skynet" Sample.bob).2.2.2
      (Error.storage "disk failure") (by decide) (by decide)).2.2.2⟩

/-! ### Facts about the bootstrapper -/

theorem Table.countP_put_le (p : String × Encoded → Bool) (key : String) (value : Encoded)
    (t : Table) :
    (Table.put key value t).countP p ≤ t.countP p + (if p (key, value) then 1 else 0) := by
  induction t with
  | nil =>
    simp only [Table.put, List.countP_cons, List.countP_nil]
    omega
  | cons kv rest ih =>
    obtain ⟨k, v⟩ := kv
    by_cases hk : k = key
    · simp only [Table.put, hk, if_true, List.countP_cons]
      omega
    · simp only [Table.put, hk, if_false, List.countP_cons]
      omega

theorem Table.countP_erase_le (p : String × Encoded → Bool) (key : String) (t : Table) :
    (Table.erase key t).countP p ≤ t.countP p :=
  List.Sublist.countP_le _ (List.filter_sublist t)

theorem deleteAcl_countP_le (p : String × Encoded → Bool) (db : Database) (a : models.Acl) :
    (DeleteAcl db a).1.acls.countP p ≤ db.acls.countP p := by
  unfold DeleteAcl database.DeleteRecord
  cases Table.get (database.table db ACLS_TABLE_NAME) a.ID.String with
  | none => exact Nat.le_refl _
  | some v => exact Table.countP_erase_le p _ db.acls

theorem deleteLoop_countP_le (p : String × Encoded → Bool) (netId : models.NetworkID)
    (acls : List models.Acl) (db : Database) :
    (acls.foldl (fun db acl =>
        if acl.NetworkID = netId ∧ acl.Default = true then (DeleteAcl db acl).1 else db)
      db).acls.countP p ≤ db.acls.countP p := by
  induction acls generalizing db with
  | nil => exact Nat.le_refl _
  | cons a rest ih =>
    simp only [List.foldl_cons]
    refine Nat.le_trans (ih _) ?_
    by_cases hc : a.NetworkID = netId ∧ a.Default = true
    · rw [if_pos hc]
      exact deleteAcl_countP_le p db a
    · rw [if_neg hc]

theorem deleteDefaults_count_le (db : Database) (netId netID : models.NetworkID)
    (ruleType : models.AclPolicyType) :
    spec_defaultCount (DeleteDefaultNetworkPolicies db netId) netID ruleType
      ≤ spec_defaultCount db netID ruleType := by
  unfold spec_defaultCount DeleteDefaultNetworkPolicies
  exact deleteLoop_countP_le _ netId _ db

theorem createDefaults_count_le (db : Database) (netId netID : models.NetworkID)
    (id1 id2 : uuid.UUID) (now1 now2 : time.Time) (ruleType : models.AclPolicyType) :
    spec_defaultCount (CreateDefaultAclNetworkPolicies db netId id1 id2 now1 now2)
        netID ruleType
      ≤ spec_defaultCount db netID ruleType + (if netID = netId then 1 else 0) := by
  unfold spec_defaultCount CreateDefaultAclNetworkPolicies
  cases hw : db.writeFault with
  | some msg =>
    simp only [InsertAcl, json.Marshal, database.Insert, hw]
    omega
  | none =>
    simp only [insertAcl_eq db _ hw]
    rw [insertAcl_eq _ _ (by exact hw)]
    simp only
    refine Nat.le_trans (Table.countP_put_le _ _ _ _) ?_
    have h1 := Table.countP_put_le (fun kv => spec_isDefaultOf netID ruleType kv.2)
      id1.String (Encoded.policy
        { ID := id1, Default := true, Name := "all-nodes", NetworkID := netId,
          RuleType := models.DevicePolicy,
          Src := [{ ID := models.DeviceAclID, Value := "*" }],
          Dst := [{ ID := models.DeviceAclID, Value := "*" }],
          AllowedDirection := models.TrafficDirectionBi,
          Enabled := true, CreatedBy := "auto", CreatedAt := now1 }) db.acls
    simp only [spec_isDefaultOf, Bool.true_and, Bool.and_eq_true, decide_eq_true_eq] at h1 ⊢
    have hdu : ¬ (models.DevicePolicy = ruleType ∧ models.UserPolicy = ruleType) := by
      rintro ⟨hd, hu⟩
      exact userPolicy_ne_devicePolicy (hu.trans hd.symm)
    by_cases hn : netId = netID
    · subst hn
      by_cases hd : models.DevicePolicy = ruleType
      · have hu : ¬ models.UserPolicy = ruleType := fun hu => hdu ⟨hd, hu⟩
        simp only [hd, hu, and_self, and_false, and_true, if_true, if_false] at h1 ⊢
        omega
      · by_cases hu : models.UserPolicy = ruleType
        · simp only [hd, hu, and_self, and_false, and_true, if_true, if_false] at h1 ⊢
          omega
        · simp only [hd, hu, and_self, and_false, and_true, if_true, if_false] at h1 ⊢
          omega
    · have hn2 : ¬ netID = netId := fun e => hn e.symm
      simp only [hn, hn2, false_and, if_false] at h1 ⊢
      omega

/-- Along a sequence of calls that creates defaults at most once per network
and for no network of `made`, a store with at most one default per network of
`made` and rule type, and none for other networks, ends with at most one
default per network and rule type. -/
theorem runBootstrapCalls_count_le (calls : List BootstrapCall) (db : Database)
    (made : List models.NetworkID)
    (hinv : ∀ netID ruleType,
      spec_defaultCount db netID ruleType ≤ (if netID ∈ made then 1 else 0))
    (hnodup : (calls.filterMap BootstrapCall.created).Nodup)
    (hnew : ∀ n ∈ calls.filterMap BootstrapCall.created, n ∉ made) :
    ∀ netID ruleType, spec_defaultCount (runBootstrapCalls db calls) netID ruleType ≤ 1 := by
  induction calls generalizing db made with
  | nil =>
    intro netID ruleType
    have h := hinv netID ruleType
    simp only [runBootstrapCalls, List.foldl_nil]
    split at h <;> omega
  | cons call rest ih =>
    cases call with
    | delete netId =>
      simp only [BootstrapCall.created, List.filterMap_cons] at hnodup hnew
      show ∀ netID ruleType,
        spec_defaultCount (runBootstrapCalls (DeleteDefaultNetworkPolicies db netId) rest)
          netID ruleType ≤ 1
      apply ih _ made _ hnodup hnew
      intro netID ruleType
      exact Nat.le_trans (deleteDefaults_count_le db netId netID ruleType)
        (hinv netID ruleType)
    | create netId id1 id2 now1 now2 =>
      simp only [BootstrapCall.created, List.filterMap_cons, List.nodup_cons] at hnodup
      simp only [BootstrapCall.created, List.filterMap_cons, List.mem_cons,
        forall_eq_or_imp] at hnew
      show ∀ netID ruleType,
        spec_defaultCount
          (runBootstrapCalls (CreateDefaultAclNetworkPolicies db netId id1 id2 now1 now2)
            rest) netID ruleType ≤ 1
      apply ih _ (netId :: made) _ hnodup.2
      · intro n hn
        simp only [List.mem_cons, not_or]
        refine ⟨?_, hnew.2 n hn⟩
        rintro rfl
        exact hnodup.1 hn
      · intro netID ruleType
        have h1 := createDefaults_count_le db netId netID id1 id2 now1 now2 ruleType
        have h2 := hinv netID ruleType
        by_cases hn : netID = netId
        · subst hn
          simp only [hnew.1, if_false, if_true, List.mem_cons, true_or] at h1 h2 ⊢
          omega
        · simp only [hn, if_false, List.mem_cons, false_or] at h1 h2 ⊢
          omega

/-- C23, as stated, fails: starting from the empty store, two calls of
`CreateDefaultAclNetworkPolicies` for "skynet" leave two default device policies
and two default user policies of "skynet" in the policy collection. -/
theorem createDefaults_twice_duplicates :
    spec_defaultCount (runBootstrapCalls Sample.emptyStore Sample.createTwice)
      "skynet" models.DevicePolicy = 2 ∧
    spec_defaultCount (runBootstrapCalls Sample.emptyStore Sample.createTwice)
      "skynet" models.UserPolicy = 2 := by
  decide

/-- C23, amended: starting from a store whose policy collection is empty, after
any sequence of calls of `CreateDefaultAclNetworkPolicies` and
`DeleteDefaultNetworkPolicies` in which defaults are created at most once per
network, the policy collection holds, for every network and rule type, at most
one default policy. -/
theorem defaults_unique_when_created_once (db : Database) (calls : List BootstrapCall)
    (hempty : db.acls = [])
    (honce : (calls.filterMap BootstrapCall.created).Nodup) :
    ∀ netID ruleType, spec_defaultCount (runBootstrapCalls db calls) netID ruleType ≤ 1 := by
  apply runBootstrapCalls_count_le calls db [] _ honce
  · intro n _
    exact List.not_mem_nil n
  · intro netID ruleType
    simp [spec_defaultCount, hempty]

/-- C23 as amended, checked on creations for two networks around a deletion. -/
theorem defaults_unique_when_created_once_witness :
    Sample.emptyStore.acls = [] ∧
    (Sample.createEach.filterMap BootstrapCall.created).Nodup ∧
    spec_defaultCount (runBootstrapCalls Sample.emptyStore Sample.createEach)
      "othernet" models.UserPolicy = 1 ∧
    spec_defaultCount (runBootstrapCalls Sample.emptyStore Sample.createEach)
      "skynet" models.DevicePolicy ≤ 1 :=
  ⟨rfl, by decide, by decide,
    defaults_unique_when_created_once Sample.emptyStore Sample.createEach rfl (by decide)
      "skynet" models.DevicePolicy⟩

/-- C26: the scanned collection holds the default device policy of "skynet" and
the policy collection holds, under the same identifier, a policy that is not a
default one; `DeleteDefaultNetworkPolicies` for "skynet" removes that record,
because the policies to delete are listed from the scanned collection. -/
theorem deleteDefaults_removes_non_default :
    Table.get Sample.crossedStore.acls (Sample.allNodes true).ID.String
      = some (Encoded.policy { Sample.aToB with ID := (Sample.allNodes true).ID }) ∧
    ({ Sample.aToB with ID := (Sample.allNodes true).ID } : models.Acl).Default = false ∧
    (ListAcls Sample.crossedStore "skynet").1 = [Sample.allNodes true] ∧
    (DeleteDefaultNetworkPolicies Sample.crossedStore "skynet").acls = [] ∧
    Table.get (DeleteDefaultNetworkPolicies Sample.crossedStore "skynet").acls
      (Sample.allNodes true).ID.String = none := by
  decide

/-! ### Facts about the peer registry -/

theorem registered_update_self (reg : common.Registry) (iface key : String)
    (peers : String → Option common.Conn) (conn : common.Conn) :
    spec_registered
      (Function.update reg iface (some (Function.update peers key (some conn)))) iface key
      = some conn := by
  simp [spec_registered]

theorem registered_update_other (reg : common.Registry) (iface key : String)
    (peers : String → Option common.Conn) (conn : common.Conn)
    (hpeers : ∀ k, peers k = spec_registered reg iface k)
    (i k : String) (hne : (i, k) ≠ (iface, key)) :
    spec_registered
      (Function.update reg iface (some (Function.update peers key (some conn)))) i k
      = spec_registered reg i k := by
  by_cases hi : i = iface
  · subst hi
    have hk : k ≠ key := by
      intro hk
      apply hne
      rw [hk]
    simp [spec_registered, Function.update_noteq hk]
    exact hpeers k
  · simp [spec_registered, Function.update_noteq hi]

/-- C28: when dialling the remote proxy fails, or dialling succeeds and starting
the proxy fails, `AddNewPeer` returns that error and the registry is as it was;
when both succeed it returns no error, the registry then holds for the
interface name and the peer's public key a connection whose configuration has
that key, the peer's endpoint port as `RemoteWgPort` and `NmProxyPort` as
`RemoteProxyPort`, and every other entry of the registry, also under the same
interface, is as it was. -/
theorem addNewPeer_registry (ext : Externals) (reg : common.Registry)
    (wgInterface : wg.WGIface) (peer : wgtypes.PeerConfig) :
    (∀ err, (ext.Dial "udp" (AddNewPeer.remoteAddress ext peer)).2 = some err →
      AddNewPeer ext reg wgInterface peer = (reg, some err)) ∧
    ((ext.Dial "udp" (AddNewPeer.remoteAddress ext peer)).2 = none →
      ∀ err,
        (ext.Start (ext.NewProxy (AddNewPeer.proxyConfig wgInterface peer))
          (ext.Dial "udp" (AddNewPeer.remoteAddress ext peer)).1).2 = some err →
        AddNewPeer ext reg wgInterface peer = (reg, some err)) ∧
    ((ext.Dial "udp" (AddNewPeer.remoteAddress ext peer)).2 = none →
      (ext.Start (ext.NewProxy (AddNewPeer.proxyConfig wgInterface peer))
        (ext.Dial "udp" (AddNewPeer.remoteAddress ext peer)).1).2 = none →
      (AddNewPeer ext reg wgInterface peer).2 = none ∧
      (∃ conn,
        spec_registered (AddNewPeer ext reg wgInterface peer).1
          wgInterface.Name peer.PublicKey.String = some conn ∧
        conn.Config.Key = peer.PublicKey.String ∧
        conn.Config.RemoteWgPort = peer.Endpoint.Port ∧
        conn.Config.RemoteProxyPort = ext.NmProxyPort) ∧
      (∀ iface key, (iface, key) ≠ (wgInterface.Name, peer.PublicKey.String) →
        spec_registered (AddNewPeer ext reg wgInterface peer).1 iface key
          = spec_registered reg iface key)) := by
  refine ⟨?_, ?_, ?_⟩
  · intro err hd
    unfold AddNewPeer
    generalize ext.Dial "udp" (AddNewPeer.remoteAddress ext peer) = d at hd
    obtain ⟨conn, e⟩ := d
    simp only at hd
    subst hd
    rfl
  · intro hd err hs
    unfold AddNewPeer
    generalize ext.Dial "udp" (AddNewPeer.remoteAddress ext peer) = d at hd hs
    obtain ⟨conn, e⟩ := d
    simp only at hd hs
    subst hd
    simp only
    generalize ext.Start (ext.NewProxy (AddNewPeer.proxyConfig wgInterface peer)) conn
      = st at hs
    obtain ⟨p, e2⟩ := st
    simp only at hs
    subst hs
    rfl
  · intro hd hs
    unfold AddNewPeer
    generalize ext.Dial "udp" (AddNewPeer.remoteAddress ext peer) = d at hd hs
    obtain ⟨conn, e⟩ := d
    simp only at hd hs
    subst hd
    simp only
    generalize ext.Start (ext.NewProxy (AddNewPeer.proxyConfig wgInterface peer)) conn
      = st at hs
    obtain ⟨p, e2⟩ := st
    simp only at hs
    subst hs
    simp only
    cases hreg : reg wgInterface.Name with
    | some peers =>
      refine ⟨rfl, ⟨_, registered_update_self _ _ _ _ _, rfl, rfl, rfl⟩, ?_⟩
      intro iface key hne
      apply registered_update_other _ _ _ _ _ _ _ _ hne
      intro k
      simp [spec_registered, hreg]
    | none =>
      refine ⟨rfl, ⟨_, registered_update_self _ _ _ _ _, rfl, rfl, rfl⟩, ?_⟩
      intro iface key hne
      apply registered_update_other _ _ _ _ _ _ _ _ hne
      intro k
      simp [spec_registered, hreg]

/-- C28, checked on a registry that already holds another peer under "wg0": with
dialling and starting succeeding the new peer is registered and the other one
is kept; with dialling failing the registry is returned as it was. -/
theorem addNewPeer_registry_witness :
    (AddNewPeer Sample.reachable Sample.registry Sample.wg0 Sample.remotePeer).2 = none ∧
    spec_registered
        (AddNewPeer Sample.reachable Sample.registry Sample.wg0 Sample.remotePeer).1
        "wg0" "b3RoZXIta2V5"
      = some Sample.otherConn ∧
    AddNewPeer Sample.unreachable Sample.registry Sample.wg0 Sample.remotePeer
      = (Sample.registry, some (Error.text "network is unreachable")) :=
  ⟨((addNewPeer_registry Sample.reachable Sample.registry Sample.wg0 Sample.remotePeer).2.2
      rfl rfl).1,
    (((addNewPeer_registry Sample.reachable Sample.registry Sample.wg0 Sample.remotePeer).2.2
      rfl rfl).2.2 "wg0" "b3RoZXIta2V5" (by decide)).trans (by decide),
    (addNewPeer_registry Sample.unreachable Sample.registry Sample.wg0 Sample.remotePeer).1
      (Error.text "network is unreachable") rfl⟩
